import Mathlib

/-!
Verification development for the MCGS multi-agent pipeline.

The Python sources are shallowly embedded: each agent step becomes a pure
Lean function over an explicit `BuildState` record; external effects
(LLM calls, subprocesses, the filesystem) are passed in as explicit
oracle parameters.  Machine integers do not occur (exit codes are `Int`,
counters are `Nat`).
-/

namespace MCGS

/-! ## Pipeline state (src/state.py `BuildState`) -/

/-- A planner task record, `{id, title}` (src/agents/planner.py `Task`). -/
structure TaskR where
  id : String
  title : String
deriving DecidableEq, Repr

/-- The `BuildState` TypedDict of src/state.py.  `dev_attempts` is a `Nat`
(Python int, never negative here); `logs` is the append-only trace. -/
structure BuildState where
  request : String
  repo_path : String
  prd : String
  rfc : String
  tasks : List TaskR
  branch : String
  lint_ok : Bool
  tests_ok : Bool
  sec_ok : Bool
  pr_url : String
  dev_attempts : Nat
  logs : List String
deriving DecidableEq, Repr

/-- The initial state dict built in src/main.py. -/
def initial_state (request repo_path : String) : BuildState :=
  { request := request
    repo_path := repo_path
    prd := ""
    rfc := ""
    tasks := []
    branch := ""
    lint_ok := false
    tests_ok := false
    sec_ok := false
    pr_url := ""
    dev_attempts := 0
    logs := [] }

/-! ## Graph routing predicates (src/graph.py) -/

/-- `tests_next` of src/graph.py: routes after the tests node.  The source
mutates `state["logs"]` when the ceiling is hit, so the model returns the
chosen edge label together with the (possibly log-extended) state. -/
def tests_next (s : BuildState) : String × BuildState :=
  if 3 ≤ s.dev_attempts then
    ("security", { s with logs := s.logs ++ ["Max dev attempts reached, proceeding to security"] })
  else if s.tests_ok && s.lint_ok then ("security", s)
  else ("dev", s)

/-- `sec_next` of src/graph.py: routes after the security node. -/
def sec_next (s : BuildState) : String × BuildState :=
  if 3 ≤ s.dev_attempts then
    ("pr", { s with logs := s.logs ++ ["Max dev attempts reached, proceeding to PR"] })
  else if s.sec_ok then ("pr", s)
  else ("dev", s)

/-- `dev_to_tests` of src/graph.py: the dev node unconditionally goes to tests. -/
def dev_to_tests (_ : BuildState) : String := "tests"

/-! ## Node state transformers

Each graph node is embedded as a function of the state together with the
values the step obtains from the outside world (LLM output, subprocess
results, branch creation); those values are explicit parameters. -/

/-- State effect of `planner_node` (src/agents/planner.py): writes `prd`
and `tasks` and appends its log entries.  `prd`/`tasks`/`plogs` stand for
the artifacts produced by the (externally determined) LLM round trip;
the parsing pipeline itself is modelled separately as `planner_normalize`. -/
def planner_apply (prd : String) (tasks : List TaskR) (plogs : List String)
    (s : BuildState) : BuildState :=
  { s with prd := prd, tasks := tasks, logs := s.logs ++ plogs }

/-- State effect of `architect_node` (src/agents/architect.py): writes
`rfc` and appends one log entry. -/
def architect_apply (rfc : String) (s : BuildState) : BuildState :=
  { s with rfc := rfc, logs := s.logs ++ ["Architect: RFC produced"] }

/-- State effect of `dev_node` (src/agents/dev.py): ensures the branch if
empty, increments `dev_attempts` by exactly one before doing any work,
and appends the attempt log entry followed by whatever the body logged
(`body_logs` collects the entries of the try/except body, which touches
only `logs` and the filesystem). -/
def dev_node (ensured_branch : String) (body_logs : List String)
    (s : BuildState) : BuildState :=
  let s1 := if s.branch = "" then { s with branch := ensured_branch } else s
  let attempts := s1.dev_attempts + 1
  { s1 with
    dev_attempts := attempts
    logs := s1.logs
      ++ ["Dev: Starting development (attempt " ++ toString attempts ++ ")"]
      ++ body_logs }

/-- Truncation `out[:1000]` used when logging runner output. -/
def pyTrunc (n : Nat) (s : String) : String := String.mk (s.data.take n)

/-- State effect of `tests_node` (src/agents/test_agent.py) given the
linter and test runner results `(exit code, combined output)` and the
detected language: sets `lint_ok` and `tests_ok` and appends one log
entry per runner. -/
def tests_apply (language : String) (lintRes testsRes : Int × String)
    (s : BuildState) : BuildState :=
  let s1 := { s with
    lint_ok := lintRes.1 = 0
    logs := s.logs ++ ["Linter (" ++ language ++ "): exit=" ++ toString lintRes.1
      ++ "\n" ++ pyTrunc 1000 lintRes.2] }
  { s1 with
    tests_ok := testsRes.1 = 0
    logs := s1.logs ++ ["Tests (" ++ language ++ "): exit=" ++ toString testsRes.1
      ++ "\n" ++ pyTrunc 1000 testsRes.2] }

/-- State effect of `security_node` (src/agents/security.py) given the
`run_pip_audit` result: sets `sec_ok` and appends one log entry. -/
def security_apply (res : Int × String) (s : BuildState) : BuildState :=
  { s with
    sec_ok := res.1 = 0
    logs := s.logs ++ ["pip-audit: exit=" ++ toString res.1 ++ "\n" ++ pyTrunc 1000 res.2] }

/-- Modelled from the spec: `pr_node` (src/agents/pr_agent.py is imported
by src/graph.py but absent from the sources).  Per the spec, the
assemble-pr step fills `pullRequestRef` (`pr_url`) and appends to the
log; it does not touch the retry counter. -/
def pr_apply (url : String) (s : BuildState) : BuildState :=
  { s with pr_url := url, logs := s.logs ++ ["PR: assembled"] }

/-! ## Graph traversal (src/graph.py `build_graph`) -/

/-- The named graph vertices, plus the implicit terminal `END`. -/
inductive Vertex where
  | plan | design | dev | tests | security | pr | END
deriving DecidableEq, Repr

/-- Oracle for one run: what the outside world returns at the k-th step
execution.  Verification outcomes are `(exit code, output)` pairs, so the
resulting `tests_ok`/`lint_ok`/`sec_ok` booleans are arbitrary. -/
structure RunEnv where
  plannerPrd : Nat → String
  plannerTasks : Nat → List TaskR
  plannerLogs : Nat → List String
  rfcText : Nat → String
  devBranch : Nat → String
  devLogs : Nat → List String
  lang : Nat → String
  lintRes : Nat → Int × String
  testsRes : Nat → Int × String
  secRes : Nat → Int × String
  prUrl : Nat → String

/-- One step of the compiled graph: execute the node at the current
vertex, then follow its (conditional) outgoing edge, as wired by
`build_graph` in src/graph.py.  `k` is the index of this step execution,
used to address the oracle. -/
def stepGraph (env : RunEnv) (k : Nat) : Vertex × BuildState → Vertex × BuildState
  | (.plan, s) =>
      (.design, planner_apply (env.plannerPrd k) (env.plannerTasks k) (env.plannerLogs k) s)
  | (.design, s) => (.dev, architect_apply (env.rfcText k) s)
  | (.dev, s) =>
      let s1 := dev_node (env.devBranch k) (env.devLogs k) s
      (if dev_to_tests s1 = "tests" then .tests else .tests, s1)
  | (.tests, s) =>
      let s1 := tests_apply (env.lang k) (env.lintRes k) (env.testsRes k) s
      let r := tests_next s1
      ((if r.1 = "dev" then .dev else .security), r.2)
  | (.security, s) =>
      let s1 := security_apply (env.secRes k) s
      let r := sec_next s1
      ((if r.1 = "dev" then .dev else .pr), r.2)
  | (.pr, s) => (.END, pr_apply (env.prUrl k) s)
  | (.END, s) => (.END, s)

/-- Run `n` step executions starting from configuration `c`, the k-th
execution drawing its oracle values at index `k`. -/
def runSteps (env : RunEnv) : Nat → Nat → Vertex × BuildState → Vertex × BuildState
  | 0, _, c => c
  | n + 1, k, c => runSteps env n (k + 1) (stepGraph env k c)

/-! ## JSON values and `json.loads`

The planner, router and dev steps all call `json.loads` on raw LLM text.
We embed a JSON value AST and an executable recursive-descent parser
(fuel-indexed so that all recursion is structural and kernel-reducible).
Numeric literals are kept verbatim (no claim depends on numeric
semantics). -/

/-- Opening brace character, written via its code point. -/
def lbrace : Char := Char.ofNat 123

/-- Closing brace character, written via its code point. -/
def rbrace : Char := Char.ofNat 125

/-- Parsed JSON values; objects keep insertion order with unique keys
(later duplicate keys overwrite in place, like a Python dict). -/
inductive JsonValue where
  | null
  | bool (b : Bool)
  | num (lit : String)
  | str (s : String)
  | arr (elems : List JsonValue)
  | obj (fields : List (String × JsonValue))
deriving Repr

mutual

/-- Boolean equality on JSON values (by complete structure). -/
def jsonBeq : JsonValue → JsonValue → Bool
  | .null, .null => true
  | .bool a, .bool b => a = b
  | .num a, .num b => a = b
  | .str a, .str b => a = b
  | .arr a, .arr b => jsonBeqList a b
  | .obj a, .obj b => jsonBeqFields a b
  | _, _ => false

/-- Elementwise `jsonBeq` on lists. -/
def jsonBeqList : List JsonValue → List JsonValue → Bool
  | [], [] => true
  | a :: as_, b :: bs => jsonBeq a b && jsonBeqList as_ bs
  | _, _ => false

/-- Fieldwise `jsonBeq` on key/value lists. -/
def jsonBeqFields : List (String × JsonValue) → List (String × JsonValue) → Bool
  | [], [] => true
  | (ka, va) :: as_, (kb, vb) :: bs => ka = kb && jsonBeq va vb && jsonBeqFields as_ bs
  | _, _ => false

end

instance : BEq JsonValue := ⟨jsonBeq⟩

/-- JSON insignificant whitespace. -/
def jsonWs (c : Char) : Bool := c = ' ' || c = '\t' || c = '\n' || c = '\r'

/-- Drop leading JSON whitespace. -/
def skipWs : List Char → List Char
  | [] => []
  | c :: cs => if jsonWs c then skipWs cs else c :: cs

/-- Hexadecimal digit value. -/
def hexVal? (c : Char) : Option Nat :=
  if '0' ≤ c ∧ c ≤ '9' then some (c.toNat - '0'.toNat)
  else if 'a' ≤ c ∧ c ≤ 'f' then some (c.toNat - 'a'.toNat + 10)
  else if 'A' ≤ c ∧ c ≤ 'F' then some (c.toNat - 'A'.toNat + 10)
  else none

/-- Single-character JSON escapes. -/
def escChar? (c : Char) : Option Char :=
  if c = '"' then some '"'
  else if c = '\\' then some '\\'
  else if c = '/' then some '/'
  else if c = 'b' then some (Char.ofNat 8)
  else if c = 'f' then some (Char.ofNat 12)
  else if c = 'n' then some '\n'
  else if c = 'r' then some '\r'
  else if c = 't' then some '\t'
  else none

/-- Parse the body of a JSON string (the opening quote already consumed);
returns the decoded characters and the input after the closing quote. -/
def parseStringChars : List Char → Option (List Char × List Char)
  | [] => none
  | c :: cs =>
    if c = '"' then some ([], cs)
    else if c = '\\' then
      match cs with
      | [] => none
      | e :: cs₂ =>
        if e = 'u' then
          match cs₂ with
          | a :: b :: c3 :: d :: cs₃ =>
            match hexVal? a, hexVal? b, hexVal? c3, hexVal? d with
            | some ha, some hb, some hc, some hd =>
              match parseStringChars cs₃ with
              | some (tail, rest) =>
                some (Char.ofNat (((ha * 16 + hb) * 16 + hc) * 16 + hd) :: tail, rest)
              | none => none
            | _, _, _, _ => none
          | _ => none
        else
          match escChar? e with
          | some ec =>
            match parseStringChars cs₂ with
            | some (tail, rest) => some (ec :: tail, rest)
            | none => none
          | none => none
    else
      match parseStringChars cs with
      | some (tail, rest) => some (c :: tail, rest)
      | none => none

/-- Parse the optional exponent of a JSON number. -/
def parseNumberExp (acc : List Char) (cs : List Char) : Option (List Char × List Char) :=
  match cs with
  | e :: t =>
    if e = 'e' ∨ e = 'E' then
      let (sgn, t₂) :=
        match t with
        | s :: t₂ => if s = '+' ∨ s = '-' then ([s], t₂) else (([] : List Char), t)
        | [] => ([], t)
      let sp := List.span Char.isDigit t₂
      if sp.1.isEmpty then none else some (acc ++ [e] ++ sgn ++ sp.1, sp.2)
    else some (acc, cs)
  | [] => some (acc, cs)

/-- Parse a JSON number literal, returning its characters verbatim. -/
def parseNumberLit (cs : List Char) : Option (List Char × List Char) :=
  let (sign, cs₁) :=
    match cs with
    | c :: t => if c = '-' then ([c], t) else (([] : List Char), cs)
    | [] => ([], cs)
  match cs₁ with
  | [] => none
  | c :: t =>
    if ¬ c.isDigit then none
    else
      let (ipart, rest) :=
        if c = '0' then ([c], t)
        else
          let sp := List.span Char.isDigit cs₁
          (sp.1, sp.2)
      let (fpart, rest₂) :=
        match rest with
        | '.' :: t₂ =>
          let sp := List.span Char.isDigit t₂
          if sp.1.isEmpty then ([], rest) else ('.' :: sp.1, sp.2)
        | _ => (([] : List Char), rest)
      -- a bare dot with no digits is a JSON syntax error
      match rest with
      | '.' :: t₂ =>
        if (List.span Char.isDigit t₂).1.isEmpty then none
        else parseNumberExp (sign ++ ipart ++ fpart) rest₂
      | _ => parseNumberExp (sign ++ ipart ++ fpart) rest₂

/-- Insert a key into an object, overwriting in place when the key exists
(Python dict semantics for duplicate JSON keys). -/
def objInsert (kvs : List (String × JsonValue)) (k : String) (v : JsonValue) :
    List (String × JsonValue) :=
  if kvs.any (fun p => p.1 = k) then kvs.map (fun p => if p.1 = k then (k, v) else p)
  else kvs ++ [(k, v)]

mutual

/-- Parse one JSON value (fuel-indexed recursive descent). -/
def parseValue : Nat → List Char → Option (JsonValue × List Char)
  | 0, _ => none
  | fuel + 1, cs =>
    match skipWs cs with
    | [] => none
    | c :: rest =>
      if c = '"' then
        match parseStringChars rest with
        | some (body, rest₂) => some (.str (String.mk body), rest₂)
        | none => none
      else if c = lbrace then
        match skipWs rest with
        | [] => none
        | c₂ :: rest₂ =>
          if c₂ = rbrace then some (.obj [], rest₂)
          else parseObjRest fuel [] (c₂ :: rest₂)
      else if c = '[' then
        match skipWs rest with
        | [] => none
        | c₂ :: rest₂ =>
          if c₂ = ']' then some (.arr [], rest₂)
          else parseArrRest fuel [] (c₂ :: rest₂)
      else if c = 't' then
        match rest with
        | 'r' :: 'u' :: 'e' :: r => some (.bool true, r)
        | _ => none
      else if c = 'f' then
        match rest with
        | 'a' :: 'l' :: 's' :: 'e' :: r => some (.bool false, r)
        | _ => none
      else if c = 'n' then
        match rest with
        | 'u' :: 'l' :: 'l' :: r => some (.null, r)
        | _ => none
      else
        match parseNumberLit (c :: rest) with
        | some (lit, r) => some (.num (String.mk lit), r)
        | none => none

/-- Parse the members of a JSON object after at least one member is known
to follow. -/
def parseObjRest : Nat → List (String × JsonValue) → List Char →
    Option (JsonValue × List Char)
  | 0, _, _ => none
  | fuel + 1, acc, cs =>
    match skipWs cs with
    | '"' :: rest =>
      match parseStringChars rest with
      | some (keyChars, rest₂) =>
        match skipWs rest₂ with
        | ':' :: rest₃ =>
          match parseValue fuel rest₃ with
          | some (v, rest₄) =>
            let acc₂ := objInsert acc (String.mk keyChars) v
            match skipWs rest₄ with
            | ',' :: rest₅ => parseObjRest fuel acc₂ rest₅
            | c :: rest₅ => if c = rbrace then some (.obj acc₂, rest₅) else none
            | [] => none
          | none => none
        | _ => none
      | none => none
    | _ => none

/-- Parse the elements of a JSON array after at least one element is
known to follow. -/
def parseArrRest : Nat → List JsonValue → List Char → Option (JsonValue × List Char)
  | 0, _, _ => none
  | fuel + 1, acc, cs =>
    match parseValue fuel cs with
    | some (v, rest) =>
      match skipWs rest with
      | ',' :: rest₂ => parseArrRest fuel (acc ++ [v]) rest₂
      | ']' :: rest₂ => some (.arr (acc ++ [v]), rest₂)
      | _ => none
    | none => none

end

/-- `json.loads`: parse the whole text as one JSON document; any
trailing non-whitespace (or any syntax error) makes the parse fail. -/
def jsonLoads (s : String) : Option JsonValue :=
  match parseValue (2 * s.length + 4) s.data with
  | some (v, rest) => if (skipWs rest).isEmpty then some v else none
  | none => none

/-! ## Python string helpers used by the normalizers -/

/-- Index of the first occurrence of a character, if any. -/
def firstIdx? (c : Char) : List Char → Option Nat
  | [] => none
  | x :: xs => if x = c then some 0 else (firstIdx? c xs).map (· + 1)

/-- Index of the last occurrence of a character, if any. -/
def lastIdx? (c : Char) (cs : List Char) : Option Nat :=
  (firstIdx? c cs.reverse).map (fun i => cs.length - 1 - i)

/-- Python `str.find` for a single character: first index or `-1`. -/
def pyFind (s : String) (c : Char) : Int :=
  match firstIdx? c s.data with
  | some i => (i : Int)
  | none => -1

/-- Python `str.rfind` for a single character: last index or `-1`. -/
def pyRfind (s : String) (c : Char) : Int :=
  match lastIdx? c s.data with
  | some i => (i : Int)
  | none => -1

/-- Python slice-index normalization: negative indices count from the
end, and indices are clamped to `[0, n]`. -/
def pyClamp (n : Nat) (i : Int) : Nat :=
  if i < 0 then (max (i + n) 0).toNat else min i.toNat n

/-- Python `s[a:b]` slicing. -/
def pySlice (s : String) (a b : Int) : String :=
  let n := s.length
  let lo := pyClamp n a
  let hi := pyClamp n b
  String.mk ((s.data.drop lo).take (hi - lo))

/-- Python `str(value)` on a parsed JSON value.  Containers would print
their Python repr; no claim exercises that case, so it is abbreviated. -/
def pyStr : JsonValue → String
  | .null => "None"
  | .bool true => "True"
  | .bool false => "False"
  | .num lit => lit
  | .str s => s
  | .arr _ => "<list>"
  | .obj _ => "<dict>"

/-- Does `needle` occur at the head of `hay`? -/
def listLead : List Char → List Char → Bool
  | [], _ => true
  | _ :: _, [] => false
  | a :: as_, b :: bs => a = b && listLead as_ bs

/-- Does `needle` occur anywhere in `hay`? -/
def listHas (needle : List Char) : List Char → Bool
  | [] => needle.isEmpty
  | c :: cs => listLead needle (c :: cs) || listHas needle cs

/-- Python `needle in hay` on strings. -/
def strHas (hay needle : String) : Bool := listHas needle.data hay.data

/-- Lookup in a parsed JSON object (keys are unique after parsing). -/
def objGet (kvs : List (String × JsonValue)) (k : String) : Option JsonValue :=
  (kvs.find? (fun p => p.1 = k)).map (·.2)

/-! ## Intent router (src/agents/router.py) -/

/-- The fixed intent set `INTENTS`. -/
def INTENTS : List String :=
  ["plan", "design", "dev", "tests", "security", "pr", "status", "help"]

/-- The `RouteOut` pydantic model: a string intent and a dict of args. -/
structure RouteOutR where
  intent : String
  args : List (String × JsonValue)
deriving Repr

/-- `RouteOut(**data)`: `data` must be a mapping with a string `intent`;
`args` defaults to an empty dict and must be a dict when present.
A validation failure is an exception (`.error`). -/
def routeout_validate (d : JsonValue) : Except String RouteOutR :=
  match d with
  | .obj kvs =>
    match objGet kvs "intent" with
    | some (.str i) =>
      match objGet kvs "args" with
      | none => .ok { intent := i, args := [] }
      | some (.obj a) => .ok { intent := i, args := a }
      | some _ => .error "ValidationError: args must be a dict"
    | some _ => .error "ValidationError: intent must be a string"
    | none => .error "ValidationError: intent required"
  | _ => .error "TypeError: RouteOut expects a mapping"

/-- Out-of-set intents are coerced to help (tail of `route`). -/
def routeCoerce (out : RouteOutR) : RouteOutR :=
  if INTENTS.contains out.intent then out else { out with intent := "help" }

/-- `route` of src/agents/router.py, as a function of the raw LLM text.
On a parse failure it retries on `raw[raw.find(lbrace) : raw.rfind(rbrace)+1]`
with no further guard, so a second failure propagates (`.error`). -/
def route (raw : String) : Except String RouteOutR :=
  match jsonLoads raw with
  | some data =>
    match routeout_validate data with
    | .ok out => .ok (routeCoerce out)
    | .error e => .error e
  | none =>
    let start := pyFind raw lbrace
    let stop := pyRfind raw rbrace + 1
    match jsonLoads (pySlice raw start stop) with
    | some data =>
      match routeout_validate data with
      | .ok out => .ok (routeCoerce out)
      | .error e => .error e
    | none => .error "JSONDecodeError"

/-! ## Planner normalization (src/agents/planner.py) -/

/-- One entry of the planner's `converted_tasks`: a dict
`{'id': str(...), 'title': ...}` (the title is copied unconverted). -/
structure CTask where
  id : String
  title : JsonValue
deriving Repr

/-- Build one converted task from a task dict; `n` is
`len(converted_tasks)` at that point. -/
def mk_converted (n : Nat) (kvs : List (String × JsonValue)) : CTask :=
  { id :=
      match objGet kvs "task_id" with
      | some v => pyStr v
      | none =>
        match objGet kvs "id" with
        | some v => pyStr v
        | none => "task" ++ toString (n + 1)
    title :=
      match objGet kvs "task_desc" with
      | some v => v
      | none =>
        match objGet kvs "title" with
        | some v => v
        | none => .str "Untitled task" }

/-- The planner's conversion loop: non-dict entries are skipped (and do
not advance the synthesized-id counter). -/
def convert_task_aux (n : Nat) : List JsonValue → List CTask
  | [] => []
  | .obj kvs :: rest => mk_converted n kvs :: convert_task_aux (n + 1) rest
  | _ :: rest => convert_task_aux n rest

/-- Conversion of a parsed `tasks` array. -/
def convert_task_list (xs : List JsonValue) : List CTask := convert_task_aux 0 xs

/-- A converted task back as a JSON object. -/
def ctaskJson (t : CTask) : JsonValue := .obj [("id", .str t.id), ("title", t.title)]

/-- The `if 'tasks' in data:` conversion block of `planner_node`,
including the Python semantics of `in`/indexing on non-dict data. -/
def convert_tasks_field (data : JsonValue) : Except String JsonValue :=
  match data with
  | .obj kvs =>
    match objGet kvs "tasks" with
    | none => .ok data
    | some (.arr xs) =>
        .ok (.obj (objInsert kvs "tasks" (.arr ((convert_task_list xs).map ctaskJson))))
    | some (.obj _) => .ok (.obj (objInsert kvs "tasks" (.arr [])))
    | some (.str _) => .ok (.obj (objInsert kvs "tasks" (.arr [])))
    | some _ => .error "TypeError: is not iterable"
  | .str s => if strHas s "tasks" then .error "TypeError: string indices must be integers" else .ok data
  | .arr xs =>
      if xs.contains (.str "tasks") then .error "TypeError: list indices must be integers"
      else .ok data
  | _ => .error "TypeError: argument is not iterable"

/-- The `PlannerOut` pydantic model after conversion. -/
structure PlannerOutR where
  prd_md : String
  tasks : List TaskR
deriving DecidableEq, Repr

/-- Validate one task dict (`id` and `title` must be strings). -/
def task_validate (v : JsonValue) : Except String TaskR :=
  match v with
  | .obj kvs =>
    match objGet kvs "id", objGet kvs "title" with
    | some (.str i), some (.str t) => .ok { id := i, title := t }
    | _, _ => .error "ValidationError: Task"
  | _ => .error "ValidationError: Task expects a mapping"

/-- Validate every element of the `tasks` list. -/
def tasks_validate : List JsonValue → Except String (List TaskR)
  | [] => .ok []
  | x :: xs =>
    match task_validate x with
    | .ok t =>
      match tasks_validate xs with
      | .ok ts => .ok (t :: ts)
      | .error e => .error e
    | .error e => .error e

/-- `PlannerOut(**data)`: requires a mapping with string `prd_md` and a
list `tasks` of valid task dicts; anything else raises (`.error`). -/
def plannerout_validate (data : JsonValue) : Except String PlannerOutR :=
  match data with
  | .obj kvs =>
    match objGet kvs "prd_md" with
    | some (.str p) =>
      match objGet kvs "tasks" with
      | some (.arr xs) =>
        match tasks_validate xs with
        | .ok ts => .ok { prd_md := p, tasks := ts }
        | .error e => .error e
      | some _ => .error "ValidationError: tasks must be a list"
      | none => .error "ValidationError: tasks required"
    | some _ => .error "ValidationError: prd_md must be a string"
    | none => .error "ValidationError: prd_md required"
  | _ => .error "TypeError: PlannerOut expects a mapping"

/-- The planner's deterministic fallback record (built twice verbatim in
the source, for the no-JSON and bad-extracted-JSON paths). -/
def planner_fallback (request : String) : JsonValue :=
  .obj [("prd_md", .str ("# PRD\n\nRequest: " ++ request
          ++ "\n\n## Goal\nImplement the requested feature.\n\n## Acceptance Criteria\n- Feature implemented\n- Tests pass\n- Code follows standards")),
        ("tasks", .arr
          [ .obj [("id", .str "task1"), ("title", .str "Implement feature")],
            .obj [("id", .str "task2"), ("title", .str "Add tests")],
            .obj [("id", .str "task3"), ("title", .str "Update documentation")] ])]

/-- The layered recovery of `planner_node`: whole-text parse, then
brace-extraction parse (guarded by `start == -1 or end == 0`), then the
deterministic fallback. -/
def planner_recover (request raw : String) : JsonValue :=
  match jsonLoads raw with
  | some d => d
  | none =>
    let start := pyFind raw lbrace
    let stop := pyRfind raw rbrace + 1
    if start = -1 ∨ stop = 0 then planner_fallback request
    else
      match jsonLoads (pySlice raw start stop) with
      | some d => d
      | none => planner_fallback request

/-- The parsing/normalization pipeline of `planner_node`: recovery,
task-list conversion, then `PlannerOut` validation.  Conversion or
validation failures are uncaught exceptions (`.error`). -/
def planner_normalize (request raw : String) : Except String PlannerOutR :=
  match convert_tasks_field (planner_recover request raw) with
  | .ok data => plannerout_validate data
  | .error e => .error e

/-- The value `planner_normalize` yields on both fallback paths. -/
def planner_fallback_out (request : String) : PlannerOutR :=
  { prd_md := "# PRD\n\nRequest: " ++ request
      ++ "\n\n## Goal\nImplement the requested feature.\n\n## Acceptance Criteria\n- Feature implemented\n- Tests pass\n- Code follows standards"
    tasks :=
      [ { id := "task1", title := "Implement feature" },
        { id := "task2", title := "Add tests" },
        { id := "task3", title := "Update documentation" } ] }

/-! ## Project analyzer (src/tools/language_detector.py)

The filesystem below a repository root is modelled as a flat list of
(path segments, content) entries, in the enumeration order `os.walk`
would produce.  `os.walk` with the in-place `dirs[:]` pruning never
descends into a denylisted directory, so an entry is listed exactly when
no directory component is denylisted and its basename is not an ignored
file name. -/

/-- A directory tree: each entry is a file given by its path segments
(relative to the root) and its content. -/
abbrev Fs : Type := List (List String × String)

/-- The fixed directory denylist of `list_all_files`. -/
def ignore_dirs : List String :=
  [".git", ".svn", ".hg",
   "node_modules", "__pycache__", ".pytest_cache",
   "venv", "env", ".venv", ".env",
   "target", "build", "dist", "out",
   "bin", "obj", ".vs", ".vscode",
   ".idea", ".gradle", ".maven"]

/-- The fixed file-name denylist of `list_all_files`. -/
def ignore_files : List String :=
  [".DS_Store", "Thumbs.db", ".gitignore", ".env", ".env.local", ".env.production"]

/-- Basename of a path. -/
def baseName (p : List String) : String := p.getLast?.getD ""

/-- The relative path string `os.path.relpath` would produce. -/
def relString (p : List String) : String := String.intercalate "/" p

/-- No directory component of the path is denylisted. -/
def dirsVisible (p : List String) : Bool :=
  p.dropLast.all (fun d => !(ignore_dirs.contains d))

/-- The basename is not an ignored file name. -/
def fileAllowed (p : List String) : Bool := !(ignore_files.contains (baseName p))

/-- `list_all_files`: every file not under a denylisted directory and not
itself denylisted, in walk order. -/
def list_all_files (fs : Fs) : List (List String) :=
  (fs.filter (fun e => dirsVisible e.1 && fileAllowed e.1)).map (fun e => e.1)

/-- `read_file_content` (src/tools/file_operations.py): the file's
content, or the empty string when it does not exist. -/
def read_file_content (fs : Fs) (p : List String) : String :=
  match fs.find? (fun e => e.1 = p) with
  | some e => e.2
  | none => ""

/-- Does `s` end with `suf`? -/
def strEndsWith (s suf : String) : Bool := listLead suf.data.reverse s.data.reverse

/-- `os.path.splitext(...)[1]`: the extension starting at the last dot of
the basename, where leading dots do not start an extension. -/
def splitextExt (name : String) : String :=
  let cs := name.data
  let leading := (List.span (· = '.') cs).1.length
  match lastIdx? '.' cs with
  | some i => if leading ≤ i then String.mk (cs.drop i) else ""
  | none => ""

/-- `get_file_extension`: lower-cased extension of the file (the source
applies `os.path.splitext` to the relative path; only the basename can
carry the extension). -/
def get_file_extension (p : List String) : String := (splitextExt (baseName p)).toLower

/-- The static extension-to-language table (`extension_to_language`). -/
def extension_language_table : List (String × String) :=
  [(".py", "python"), (".js", "javascript"), (".mjs", "javascript"),
   (".ts", "typescript"), (".tsx", "typescript"), (".jsx", "javascript"),
   (".cs", "csharp"), (".vb", "vb.net"), (".fs", "fsharp"),
   (".java", "java"), (".kt", "kotlin"), (".scala", "scala"),
   (".go", "go"), (".rs", "rust"), (".php", "php"), (".rb", "ruby"),
   (".swift", "swift"), (".m", "objective-c"), (".mm", "objective-c++"),
   (".cpp", "cpp"), (".cc", "cpp"), (".cxx", "cpp"), (".c", "c"),
   (".h", "c"), (".hpp", "cpp"), (".dart", "dart"), (".r", "r"),
   (".jl", "julia"), (".ex", "elixir"), (".exs", "elixir"),
   (".clj", "clojure"), (".hs", "haskell"), (".ml", "ocaml"),
   (".pl", "perl"), (".sh", "bash"), (".ps1", "powershell")]

/-- `extension_to_language`. -/
def extension_to_language (ext : String) : Option String :=
  (extension_language_table.find? (fun e => e.1 = ext)).map (·.2)

/-- Add one occurrence of a language to the tally, keeping
first-encounter (dict insertion) order. -/
def tallyInsert (counts : List (String × Nat)) (lang : String) : List (String × Nat) :=
  if counts.any (fun p => p.1 = lang) then
    counts.map (fun p => if p.1 = lang then (p.1, p.2 + 1) else p)
  else counts ++ [(lang, 1)]

/-- Python `max(d, key=d.get)`: the first key attaining the maximal
count (later keys replace only on strictly greater counts). -/
def pickMax : List (String × Nat) → Option (String × Nat)
  | [] => none
  | x :: xs => some (xs.foldl (fun best p => if best.2 < p.2 then p else best) x)

/-- The `ProjectProfile` produced by `analyze_project_structure`
(`project_type`, `package_managers` and `documentation_files` are never
updated by the analyzer and keep their defaults). -/
structure ProjectProfile where
  primary_language : String
  secondary_languages : List String
  project_type : String
  frameworks : List String
  build_tools : List String
  package_managers : List String
  config_files : List String
  source_files : List String
  test_files : List String
  documentation_files : List String
  has_tests : Bool
  entry_points : List String
deriving DecidableEq, Repr

/-- The `config_patterns` table of `analyze_config_files`:
(pattern, language, build tool), in source order. -/
def config_patterns : List (String × String × String) :=
  [("requirements.txt", "python", "pip"),
   ("pyproject.toml", "python", "poetry/setuptools"),
   ("setup.py", "python", "setuptools"),
   ("Pipfile", "python", "pipenv"),
   ("poetry.lock", "python", "poetry"),
   ("package.json", "javascript", "npm/yarn"),
   ("yarn.lock", "javascript", "yarn"),
   ("package-lock.json", "javascript", "npm"),
   ("tsconfig.json", "typescript", "tsc"),
   ("webpack.config.js", "javascript", "webpack"),
   ("vite.config.js", "javascript", "vite"),
   ("next.config.js", "javascript", "next.js"),
   ("*.csproj", "csharp", "dotnet"),
   ("*.vbproj", "vb.net", "dotnet"),
   ("*.fsproj", "fsharp", "dotnet"),
   ("*.sln", "csharp", "dotnet"),
   ("global.json", "csharp", "dotnet"),
   ("pom.xml", "java", "maven"),
   ("build.gradle", "java", "gradle"),
   ("build.gradle.kts", "kotlin", "gradle"),
   ("go.mod", "go", "go modules"),
   ("go.sum", "go", "go modules"),
   ("Cargo.toml", "rust", "cargo"),
   ("Cargo.lock", "rust", "cargo"),
   ("composer.json", "php", "composer"),
   ("composer.lock", "php", "composer"),
   ("Gemfile", "ruby", "bundler"),
   ("Gemfile.lock", "ruby", "bundler"),
   ("Dockerfile", "docker", "docker"),
   ("docker-compose.yml", "docker", "docker-compose"),
   ("Makefile", "make", "make"),
   ("CMakeLists.txt", "cpp", "cmake")]

/-- Append a build tool if not already recorded. -/
def toolInsert (bts : List String) (tool : String) : List String :=
  if bts.contains tool then bts else bts ++ [tool]

/-- Does the pattern contain a `*` (suffix pattern)? -/
def patIsStar (pat : String) : Bool := pat.data.contains '*'

/-- The pattern with all `*` removed (`pattern.replace('*','')`). -/
def starSuffix (pat : String) : String := String.mk (pat.data.filter (· ≠ '*'))

/-- One file's contribution in `analyze_config_files`: an exact-name
match and then every matching suffix pattern each append the file and
record the build tool. -/
def config_step (acc : List String × List String) (p : List String) :
    List String × List String :=
  let filename := baseName p
  let acc₁ :=
    match config_patterns.find? (fun t => t.1 = filename) with
    | some t => (acc.1 ++ [relString p], toolInsert acc.2 t.2.2)
    | none => acc
  config_patterns.foldl
    (fun a t =>
      if patIsStar t.1 && strEndsWith filename (starSuffix t.1) then
        (a.1 ++ [relString p], toolInsert a.2 t.2.2)
      else a)
    acc₁

/-- The `framework_patterns` table of `detect_frameworks_and_type`. -/
def framework_patterns (language : String) : List (String × List String) :=
  if language = "python" then
    [("fastapi", ["from fastapi", "import fastapi", "FastAPI()"]),
     ("flask", ["from flask", "import flask", "Flask(__name__)"]),
     ("django", ["django.", "DJANGO_SETTINGS_MODULE", "manage.py"]),
     ("pytest", ["import pytest", "def test_", "@pytest."])]
  else if language = "javascript" then
    [("react", ["import React", "from \"react\"", "React.Component"]),
     ("vue", ["import Vue", "from \"vue\"", "<template>"]),
     ("angular", ["@angular/", "@Component", "@Injectable"]),
     ("express", ["require(\"express\")", "import express", "express()"]),
     ("next", ["next/", "from \"next\"", "getServerSideProps"])]
  else if language = "csharp" then
    [("asp.net", ["using Microsoft.AspNetCore", "[ApiController]", "WebApplication."]),
     ("blazor", ["@page", "@code", "ComponentBase"]),
     ("mvc", ["Controller", "ActionResult", "ViewResult"])]
  else if language = "java" then
    [("spring", ["@SpringBootApplication", "@RestController", "@Service"]),
     ("springboot", ["@SpringBootApplication", "SpringApplication.run"])]
  else []

/-- `get_source_extensions`. -/
def get_source_extensions (language : String) : List String :=
  if language = "python" then [".py"]
  else if language = "javascript" then [".js", ".mjs", ".jsx"]
  else if language = "typescript" then [".ts", ".tsx"]
  else if language = "csharp" then [".cs"]
  else if language = "java" then [".java"]
  else if language = "go" then [".go"]
  else if language = "rust" then [".rs"]
  else if language = "php" then [".php"]
  else if language = "ruby" then [".rb"]
  else []

/-- `detect_frameworks_and_type`: for the primary language only, read
each source file and record every framework with a matching signature
substring. -/
def detect_frameworks (language : String) (files : List (List String))
    (content : List String → String) : List String :=
  if (framework_patterns language).isEmpty then []
  else
    files.foldl
      (fun fws p =>
        if (get_source_extensions language).any (fun ext => strEndsWith (relString p) ext) then
          let c := content p
          (framework_patterns language).foldl
            (fun fws2 fp =>
              if fp.2.any (fun pat => strHas c pat) then toolInsert fws2 fp.1 else fws2)
            fws
        else fws)
      []

/-- The known-entry-file set of `find_entry_points`. -/
def entry_patterns : List String :=
  ["main.py", "app.py", "server.py", "run.py", "__main__.py",
   "index.js", "server.js", "app.js", "main.js",
   "index.ts", "server.ts", "app.ts", "main.ts",
   "Program.cs", "Startup.cs", "Main.cs",
   "Main.java", "Application.java",
   "main.go", "server.go", "app.go",
   "main.rs", "lib.rs", "server.rs",
   "index.php", "app.php", "server.php"]

/-- The test-marker substrings of `find_test_files`. -/
def test_patterns : List String :=
  ["test_", "_test.", ".test.", ".spec.",
   "/test/", "/tests/", "__tests__/",
   "Test.cs", "Tests.cs", "Test.java"]

/-- `analyze_project_structure` as a function of the listing and of the
contents of listed files (all it ever reads). -/
def analyze_core (files : List (List String)) (content : List String → String) :
    ProjectProfile :=
  let counts := files.foldl
    (fun acc p =>
      match extension_to_language (get_file_extension p) with
      | some l => tallyInsert acc l
      | none => acc) []
  let source_files := (files.filter
    (fun p => (extension_to_language (get_file_extension p)).isSome)).map relString
  let primary :=
    match pickMax counts with
    | some kv => kv.1
    | none => "unknown"
  let secondary := (counts.map (·.1)).filter (fun l => l ≠ primary)
  let cfg := files.foldl config_step ([], [])
  let frameworks := detect_frameworks primary files content
  let entry_points := (files.filter (fun p => entry_patterns.contains (baseName p))).map relString
  let test_files := (files.filter
    (fun p => test_patterns.any (fun pat => strHas (relString p) pat))).map relString
  { primary_language := primary
    secondary_languages := secondary
    project_type := "unknown"
    frameworks := frameworks
    build_tools := cfg.2
    package_managers := []
    config_files := cfg.1
    source_files := source_files
    test_files := test_files
    documentation_files := []
    has_tests := !test_files.isEmpty
    entry_points := entry_points }

/-- `analyze_project_structure`: enumerate, then profile. -/
def analyze_project_structure (fs : Fs) : ProjectProfile :=
  analyze_core (list_all_files fs) (read_file_content fs)

/-! ## Subprocess boundary (src/tools/shell.py, src/tools/code_runner.py)

Every external tool invocation is `subprocess.run(cmd, cwd=...,
capture_output=True, text=True)` with or without a `timeout=` argument.
An invocation is a `SubprocCall`; what the outside world does with it is
a `SubprocOracle`.  `subprocess.run` either returns (code, stdout,
stderr), raises `FileNotFoundError` (missing executable), or — only when
a timeout was passed — raises `TimeoutExpired`. -/

/-- One subprocess invocation as issued by the code. -/
structure SubprocCall where
  cmd : List String
  cwd : String
  timeout : Option Nat
deriving DecidableEq, Repr

/-- Possible behaviors of `subprocess.run` on an invocation. -/
inductive SubprocRes where
  | ret (code : Int) (stdout stderr : String)
  | fileNotFound (msg : String)
  | timeoutExpired (msg : String)
deriving DecidableEq, Repr

/-- The outside world's response to each subprocess invocation. -/
abbrev SubprocOracle : Type := SubprocCall → SubprocRes

/-- `os.path.exists` as an oracle. -/
abbrev PathOracle : Type := String → Bool

/-- `run` of src/tools/shell.py: `subprocess.run(cmd, cwd=cwd,
capture_output=True, text=True)` — note: no `timeout=` argument. -/
def shell_run (o : SubprocOracle) (cmd : List String) (cwd : String) : SubprocRes :=
  o { cmd := cmd, cwd := cwd, timeout := none }

/-- A `try: return run(...) except FileNotFoundError: return (1, msg)`
block around one `shell.run` call, as written throughout
src/tools/runners.py.  On success the result is
`(returncode, stdout + stderr)`; `TimeoutExpired` is not caught there
and would propagate (`.error`). -/
def catchFnf (r : SubprocRes) (handler : String) : Except String (Int × String) :=
  match r with
  | .ret c so se => .ok (c, so ++ se)
  | .fileNotFound _ => .ok (1, handler)
  | .timeoutExpired m => .error m

namespace runners

/-- `run_python_tests` of src/tools/runners.py (POSIX branch of the
`os.name` test for the venv pytest path). -/
def run_python_tests (fs : PathOracle) (o : SubprocOracle) (repo_path : String) :
    Except String (Int × String) :=
  let venv_path := repo_path ++ "/venv"
  if fs venv_path then
    let pytest_path := venv_path ++ "/bin/pytest"
    if fs pytest_path then
      catchFnf (shell_run o [pytest_path, "-q"] repo_path) "pytest not found - skipping tests"
    else
      catchFnf (shell_run o ["pytest", "-q"] repo_path) "pytest not found - skipping tests"
  else
    catchFnf (shell_run o ["pytest", "-q"] repo_path) "pytest not found - skipping tests"

/-- `run_python_linter` of src/tools/runners.py. -/
def run_python_linter (_fs : PathOracle) (o : SubprocOracle) (repo_path : String) :
    Except String (Int × String) :=
  catchFnf (shell_run o ["ruff", "check", "."] repo_path) "ruff not found - skipping lint check"

/-- `run_python_audit` of src/tools/runners.py. -/
def run_python_audit (fs : PathOracle) (o : SubprocOracle) (repo_path : String) :
    Except String (Int × String) :=
  let req_file := repo_path ++ "/requirements.txt"
  if fs req_file then
    catchFnf (shell_run o ["pip-audit", "-r", "requirements.txt"] repo_path)
      "pip-audit not found - skipping security check"
  else
    catchFnf (shell_run o ["pip-audit"] repo_path)
      "pip-audit not found - skipping security check"

/-- `run_node_tests`. -/
def run_node_tests (fs : PathOracle) (o : SubprocOracle) (repo_path : String) :
    Except String (Int × String) :=
  if fs (repo_path ++ "/package.json") then
    catchFnf (shell_run o ["npm", "test"] repo_path) "npm/jest not found - skipping tests"
  else
    catchFnf (shell_run o ["jest"] repo_path) "npm/jest not found - skipping tests"

/-- `run_node_linter`. -/
def run_node_linter (_fs : PathOracle) (o : SubprocOracle) (repo_path : String) :
    Except String (Int × String) :=
  catchFnf (shell_run o ["npx", "eslint", "."] repo_path) "eslint not found - skipping lint check"

/-- `run_node_audit`. -/
def run_node_audit (_fs : PathOracle) (o : SubprocOracle) (repo_path : String) :
    Except String (Int × String) :=
  catchFnf (shell_run o ["npm", "audit"] repo_path) "npm not found - skipping security audit"

/-- `run_dotnet_tests`. -/
def run_dotnet_tests (_fs : PathOracle) (o : SubprocOracle) (repo_path : String) :
    Except String (Int × String) :=
  catchFnf (shell_run o ["dotnet", "test"] repo_path) "dotnet not found - skipping tests"

/-- `run_dotnet_linter`. -/
def run_dotnet_linter (_fs : PathOracle) (o : SubprocOracle) (repo_path : String) :
    Except String (Int × String) :=
  catchFnf (shell_run o ["dotnet", "format", "--verify-no-changes"] repo_path)
    "dotnet not found - skipping lint check"

/-- `run_dotnet_audit`. -/
def run_dotnet_audit (_fs : PathOracle) (o : SubprocOracle) (repo_path : String) :
    Except String (Int × String) :=
  catchFnf (shell_run o ["dotnet", "list", "package", "--vulnerable"] repo_path)
    "dotnet not found - skipping security audit"

/-- `run_java_tests`. -/
def run_java_tests (fs : PathOracle) (o : SubprocOracle) (repo_path : String) :
    Except String (Int × String) :=
  if fs (repo_path ++ "/pom.xml") then
    catchFnf (shell_run o ["mvn", "test"] repo_path) "Java build tools not found - skipping tests"
  else if fs (repo_path ++ "/build.gradle") || fs (repo_path ++ "/build.gradle.kts") then
    catchFnf (shell_run o ["./gradlew", "test"] repo_path)
      "Java build tools not found - skipping tests"
  else .ok (1, "No build tool found (Maven/Gradle)")

/-- `run_java_linter`. -/
def run_java_linter (_fs : PathOracle) (o : SubprocOracle) (repo_path : String) :
    Except String (Int × String) :=
  catchFnf (shell_run o ["mvn", "checkstyle:check"] repo_path)
    "checkstyle not found - skipping lint check"

/-- `run_java_audit`. -/
def run_java_audit (fs : PathOracle) (o : SubprocOracle) (repo_path : String) :
    Except String (Int × String) :=
  if fs (repo_path ++ "/pom.xml") then
    catchFnf (shell_run o ["mvn", "dependency:tree"] repo_path)
      "Java build tools not found - skipping security audit"
  else
    catchFnf (shell_run o ["./gradlew", "dependencies"] repo_path)
      "Java build tools not found - skipping security audit"

/-- `run_go_tests`. -/
def run_go_tests (_fs : PathOracle) (o : SubprocOracle) (repo_path : String) :
    Except String (Int × String) :=
  catchFnf (shell_run o ["go", "test", "./..."] repo_path) "go not found - skipping tests"

/-- `run_go_linter` (nested try: golint, then go vet). -/
def run_go_linter (_fs : PathOracle) (o : SubprocOracle) (repo_path : String) :
    Except String (Int × String) :=
  match shell_run o ["golint", "./..."] repo_path with
  | .ret c so se => .ok (c, so ++ se)
  | .fileNotFound _ =>
    match shell_run o ["go", "vet", "./..."] repo_path with
    | .ret c so se => .ok (c, so ++ se)
    | .fileNotFound _ => .ok (1, "go linter not found - skipping lint check")
    | .timeoutExpired m => .error m
  | .timeoutExpired m => .error m

/-- `run_go_audit`. -/
def run_go_audit (_fs : PathOracle) (o : SubprocOracle) (repo_path : String) :
    Except String (Int × String) :=
  catchFnf (shell_run o ["go", "list", "-m", "all"] repo_path)
    "go not found - skipping security audit"

/-- `run_rust_tests`. -/
def run_rust_tests (_fs : PathOracle) (o : SubprocOracle) (repo_path : String) :
    Except String (Int × String) :=
  catchFnf (shell_run o ["cargo", "test"] repo_path) "cargo not found - skipping tests"

/-- `run_rust_linter`. -/
def run_rust_linter (_fs : PathOracle) (o : SubprocOracle) (repo_path : String) :
    Except String (Int × String) :=
  catchFnf (shell_run o ["cargo", "clippy"] repo_path) "cargo not found - skipping lint check"

/-- `run_rust_audit`. -/
def run_rust_audit (_fs : PathOracle) (o : SubprocOracle) (repo_path : String) :
    Except String (Int × String) :=
  catchFnf (shell_run o ["cargo", "audit"] repo_path)
    "cargo-audit not found - skipping security audit"

/-- `run_tests` of src/tools/runners.py: language dispatch; an unknown
language yields exit code 1. -/
def run_tests (fs : PathOracle) (o : SubprocOracle) (repo_path : String)
    (project_analysis : ProjectProfile) : Except String (Int × String) :=
  let language := project_analysis.primary_language
  if language = "python" then run_python_tests fs o repo_path
  else if language = "javascript" ∨ language = "typescript" then run_node_tests fs o repo_path
  else if language = "csharp" then run_dotnet_tests fs o repo_path
  else if language = "java" then run_java_tests fs o repo_path
  else if language = "go" then run_go_tests fs o repo_path
  else if language = "rust" then run_rust_tests fs o repo_path
  else .ok (1, "No test runner configured for " ++ language)

/-- `run_linter` of src/tools/runners.py: language dispatch; an unknown
language yields exit code 0. -/
def run_linter (fs : PathOracle) (o : SubprocOracle) (repo_path : String)
    (project_analysis : ProjectProfile) : Except String (Int × String) :=
  let language := project_analysis.primary_language
  if language = "python" then run_python_linter fs o repo_path
  else if language = "javascript" ∨ language = "typescript" then run_node_linter fs o repo_path
  else if language = "csharp" then run_dotnet_linter fs o repo_path
  else if language = "java" then run_java_linter fs o repo_path
  else if language = "go" then run_go_linter fs o repo_path
  else if language = "rust" then run_rust_linter fs o repo_path
  else .ok (0, "No linter configured for " ++ language)

/-- `run_security_audit` of src/tools/runners.py: language dispatch; an
unknown language yields exit code 0. -/
def run_security_audit (fs : PathOracle) (o : SubprocOracle) (repo_path : String)
    (project_analysis : ProjectProfile) : Except String (Int × String) :=
  let language := project_analysis.primary_language
  if language = "python" then run_python_audit fs o repo_path
  else if language = "javascript" ∨ language = "typescript" then run_node_audit fs o repo_path
  else if language = "csharp" then run_dotnet_audit fs o repo_path
  else if language = "java" then run_java_audit fs o repo_path
  else if language = "go" then run_go_audit fs o repo_path
  else if language = "rust" then run_rust_audit fs o repo_path
  else .ok (0, "No security audit configured for " ++ language)

/-- `run_pip_audit` (legacy alias for `run_python_audit`). -/
def run_pip_audit (fs : PathOracle) (o : SubprocOracle) (repo_path : String) :
    Except String (Int × String) :=
  run_python_audit fs o repo_path

end runners

namespace code_runner

/-- A `subprocess.run(cmd, cwd=repo_path, capture_output=True,
text=True, timeout=t)` invocation as issued by src/tools/code_runner.py. -/
def subp (o : SubprocOracle) (cmd : List String) (cwd : String) (t : Nat) : SubprocRes :=
  o { cmd := cmd, cwd := cwd, timeout := some t }

/-- `run_python_tests` of src/tools/code_runner.py: pytest first
(timeout 120), falling back to unittest discovery (timeout 120);
`TimeoutExpired` and any other exception are caught locally. -/
def run_python_tests (_fs : PathOracle) (o : SubprocOracle) (repo_path : String)
    (_pa : ProjectProfile) : Int × String :=
  match subp o ["python", "-m", "pytest", "-v"] repo_path 120 with
  | .ret c so se =>
    if c = 0 ∨ strHas so "collected" then (c, so ++ se)
    else
      match subp o ["python", "-m", "unittest", "discover", "-v"] repo_path 120 with
      | .ret c₂ so₂ se₂ => (c₂, so₂ ++ se₂)
      | .timeoutExpired _ => (1, "Test execution timed out")
      | .fileNotFound m => (1, "Error running Python tests: " ++ m)
  | .timeoutExpired _ => (1, "Test execution timed out")
  | .fileNotFound m => (1, "Error running Python tests: " ++ m)

/-- `run_python_linting` of src/tools/code_runner.py: ruff (timeout 60),
falling back to flake8 (timeout 60) when ruff exits 127. -/
def run_python_linting (_fs : PathOracle) (o : SubprocOracle) (repo_path : String)
    (_pa : ProjectProfile) : Int × String :=
  match subp o ["ruff", "check", "."] repo_path 60 with
  | .ret c so se =>
    if c ≠ 127 then (c, so ++ se)
    else
      match subp o ["flake8", "."] repo_path 60 with
      | .ret c₂ so₂ se₂ => (c₂, so₂ ++ se₂)
      | .timeoutExpired m => (1, "Error running Python linting: " ++ m)
      | .fileNotFound m => (1, "Error running Python linting: " ++ m)
  | .timeoutExpired m => (1, "Error running Python linting: " ++ m)
  | .fileNotFound m => (1, "Error running Python linting: " ++ m)

/-- `run_javascript_tests`: `npm test` (timeout 120) when a
`package.json` exists, otherwise a neutral pass. -/
def run_javascript_tests (fs : PathOracle) (o : SubprocOracle) (repo_path : String)
    (_pa : ProjectProfile) : Int × String :=
  if fs (repo_path ++ "/package.json") then
    match subp o ["npm", "test"] repo_path 120 with
    | .ret c so se => (c, so ++ se)
    | .timeoutExpired m => (1, "Error running JavaScript tests: " ++ m)
    | .fileNotFound m => (1, "Error running JavaScript tests: " ++ m)
  else (0, "No package.json found")

/-- `run_typescript_tests` (same as JavaScript). -/
def run_typescript_tests (fs : PathOracle) (o : SubprocOracle) (repo_path : String)
    (pa : ProjectProfile) : Int × String :=
  run_javascript_tests fs o repo_path pa

/-- `run_javascript_linting`: ESLint via npx (timeout 60). -/
def run_javascript_linting (_fs : PathOracle) (o : SubprocOracle) (repo_path : String)
    (_pa : ProjectProfile) : Int × String :=
  match subp o ["npx", "eslint", "."] repo_path 60 with
  | .ret c so se => (c, so ++ se)
  | .timeoutExpired m => (1, "Error running JavaScript linting: " ++ m)
  | .fileNotFound m => (1, "Error running JavaScript linting: " ++ m)

/-- `run_typescript_linting`: `tsc --noEmit` via npx (timeout 60). -/
def run_typescript_linting (_fs : PathOracle) (o : SubprocOracle) (repo_path : String)
    (_pa : ProjectProfile) : Int × String :=
  match subp o ["npx", "tsc", "--noEmit"] repo_path 60 with
  | .ret c so se => (c, so ++ se)
  | .timeoutExpired m => (1, "Error running TypeScript linting: " ++ m)
  | .fileNotFound m => (1, "Error running TypeScript linting: " ++ m)

/-- `run_csharp_tests`: `dotnet test` (timeout 120). -/
def run_csharp_tests (_fs : PathOracle) (o : SubprocOracle) (repo_path : String)
    (_pa : ProjectProfile) : Int × String :=
  match subp o ["dotnet", "test"] repo_path 120 with
  | .ret c so se => (c, so ++ se)
  | .timeoutExpired m => (1, "Error running C# tests: " ++ m)
  | .fileNotFound m => (1, "Error running C# tests: " ++ m)

/-- `run_csharp_linting`: `dotnet build --verbosity normal` (timeout 60). -/
def run_csharp_linting (_fs : PathOracle) (o : SubprocOracle) (repo_path : String)
    (_pa : ProjectProfile) : Int × String :=
  match subp o ["dotnet", "build", "--verbosity", "normal"] repo_path 60 with
  | .ret c so se => (c, so ++ se)
  | .timeoutExpired m => (1, "Error running C# linting: " ++ m)
  | .fileNotFound m => (1, "Error running C# linting: " ++ m)

/-- `run_java_tests`: Maven or Gradle (timeout 180), neutral pass when
no build file exists. -/
def run_java_tests (fs : PathOracle) (o : SubprocOracle) (repo_path : String)
    (_pa : ProjectProfile) : Int × String :=
  if fs (repo_path ++ "/pom.xml") then
    match subp o ["mvn", "test"] repo_path 180 with
    | .ret c so se => (c, so ++ se)
    | .timeoutExpired m => (1, "Error running Java tests: " ++ m)
    | .fileNotFound m => (1, "Error running Java tests: " ++ m)
  else if fs (repo_path ++ "/build.gradle") then
    let gradle_cmd := if fs (repo_path ++ "/gradlew") then "./gradlew" else "gradle"
    match subp o [gradle_cmd, "test"] repo_path 180 with
    | .ret c so se => (c, so ++ se)
    | .timeoutExpired m => (1, "Error running Java tests: " ++ m)
    | .fileNotFound m => (1, "Error running Java tests: " ++ m)
  else (0, "No Maven or Gradle build file found")

/-- `build_java_project`: Maven/Gradle compile (timeout 180), used as the
fallback of `run_java_linting`. -/
def build_java_project (fs : PathOracle) (o : SubprocOracle) (repo_path : String)
    (_pa : ProjectProfile) : Int × String :=
  if fs (repo_path ++ "/pom.xml") then
    match subp o ["mvn", "compile"] repo_path 180 with
    | .ret c so se => (c, so ++ se)
    | .timeoutExpired m => (1, "Error building Java project: " ++ m)
    | .fileNotFound m => (1, "Error building Java project: " ++ m)
  else if fs (repo_path ++ "/build.gradle") then
    let gradle_cmd := if fs (repo_path ++ "/gradlew") then "./gradlew" else "gradle"
    match subp o [gradle_cmd, "compileJava"] repo_path 180 with
    | .ret c so se => (c, so ++ se)
    | .timeoutExpired m => (1, "Error building Java project: " ++ m)
    | .fileNotFound m => (1, "Error building Java project: " ++ m)
  else (0, "No Maven or Gradle build file found")

/-- `run_java_linting`: checkstyle (Maven) or `gradle check`
(timeout 60); on any exception it falls back to the build. -/
def run_java_linting (fs : PathOracle) (o : SubprocOracle) (repo_path : String)
    (pa : ProjectProfile) : Int × String :=
  let cmd := if fs (repo_path ++ "/pom.xml") then ["mvn", "checkstyle:check"]
             else ["gradle", "check"]
  match subp o cmd repo_path 60 with
  | .ret c so se => (c, so ++ se)
  | .timeoutExpired _ => build_java_project fs o repo_path pa
  | .fileNotFound _ => build_java_project fs o repo_path pa

/-- `run_go_tests`: `go test ./...` (timeout 120). -/
def run_go_tests (_fs : PathOracle) (o : SubprocOracle) (repo_path : String)
    (_pa : ProjectProfile) : Int × String :=
  match subp o ["go", "test", "./..."] repo_path 120 with
  | .ret c so se => (c, so ++ se)
  | .timeoutExpired m => (1, "Error running Go tests: " ++ m)
  | .fileNotFound m => (1, "Error running Go tests: " ++ m)

/-- `run_go_linting`: golangci-lint (timeout 60), falling back to
`go vet` when it exits 127. -/
def run_go_linting (_fs : PathOracle) (o : SubprocOracle) (repo_path : String)
    (_pa : ProjectProfile) : Int × String :=
  match subp o ["golangci-lint", "run"] repo_path 60 with
  | .ret c so se =>
    if c ≠ 127 then (c, so ++ se)
    else
      match subp o ["go", "vet", "./..."] repo_path 60 with
      | .ret c₂ so₂ se₂ => (c₂, so₂ ++ se₂)
      | .timeoutExpired m => (1, "Error running Go linting: " ++ m)
      | .fileNotFound m => (1, "Error running Go linting: " ++ m)
  | .timeoutExpired m => (1, "Error running Go linting: " ++ m)
  | .fileNotFound m => (1, "Error running Go linting: " ++ m)

/-- `run_rust_tests`: `cargo test` (timeout 180). -/
def run_rust_tests (_fs : PathOracle) (o : SubprocOracle) (repo_path : String)
    (_pa : ProjectProfile) : Int × String :=
  match subp o ["cargo", "test"] repo_path 180 with
  | .ret c so se => (c, so ++ se)
  | .timeoutExpired m => (1, "Error running Rust tests: " ++ m)
  | .fileNotFound m => (1, "Error running Rust tests: " ++ m)

/-- `run_rust_linting`: `cargo clippy -- -D warnings` (timeout 60). -/
def run_rust_linting (_fs : PathOracle) (o : SubprocOracle) (repo_path : String)
    (_pa : ProjectProfile) : Int × String :=
  match subp o ["cargo", "clippy", "--", "-D", "warnings"] repo_path 60 with
  | .ret c so se => (c, so ++ se)
  | .timeoutExpired m => (1, "Error running Rust linting: " ++ m)
  | .fileNotFound m => (1, "Error running Rust linting: " ++ m)

/-- `run_php_tests`: phpunit (vendored or global, timeout 120). -/
def run_php_tests (fs : PathOracle) (o : SubprocOracle) (repo_path : String)
    (_pa : ProjectProfile) : Int × String :=
  if fs (repo_path ++ "/vendor/bin/phpunit") then
    match subp o ["vendor/bin/phpunit"] repo_path 120 with
    | .ret c so se => (c, so ++ se)
    | .timeoutExpired m => (1, "Error running PHP tests: " ++ m)
    | .fileNotFound m => (1, "Error running PHP tests: " ++ m)
  else
    match subp o ["phpunit"] repo_path 120 with
    | .ret c so se => (c, so ++ se)
    | .timeoutExpired m => (1, "Error running PHP tests: " ++ m)
    | .fileNotFound m => (1, "Error running PHP tests: " ++ m)

/-- The per-file `php -l` loop of `build_php_project` (timeout 30 each);
the first failing file's result is returned. -/
def php_lint_loop (o : SubprocOracle) (repo_path : String) : List String → Int × String
  | [] => (0, "All PHP files syntax check passed")
  | f :: rest =>
    match subp o ["php", "-l", f] repo_path 30 with
    | .ret c so se => if c ≠ 0 then (c, so ++ se) else php_lint_loop o repo_path rest
    | .timeoutExpired m => (1, "Error building PHP project: " ++ m)
    | .fileNotFound m => (1, "Error building PHP project: " ++ m)

/-- `build_php_project`: syntax-check every `.php` source file. -/
def build_php_project (_fs : PathOracle) (o : SubprocOracle) (repo_path : String)
    (pa : ProjectProfile) : Int × String :=
  let php_files := pa.source_files.filter (fun f => strEndsWith f ".php")
  if php_files.isEmpty then (0, "No PHP files found")
  else php_lint_loop o repo_path php_files

/-- `run_php_linting`: phpcs (timeout 60); on exception fall back to the
syntax check. -/
def run_php_linting (fs : PathOracle) (o : SubprocOracle) (repo_path : String)
    (pa : ProjectProfile) : Int × String :=
  match subp o ["phpcs", "."] repo_path 60 with
  | .ret c so se => (c, so ++ se)
  | .timeoutExpired _ => build_php_project fs o repo_path pa
  | .fileNotFound _ => build_php_project fs o repo_path pa

/-- `run_ruby_tests`: rspec when a `spec` directory exists, else a
minitest glob (timeout 120). -/
def run_ruby_tests (fs : PathOracle) (o : SubprocOracle) (repo_path : String)
    (_pa : ProjectProfile) : Int × String :=
  if fs (repo_path ++ "/spec") then
    match subp o ["rspec"] repo_path 120 with
    | .ret c so se => (c, so ++ se)
    | .timeoutExpired m => (1, "Error running Ruby tests: " ++ m)
    | .fileNotFound m => (1, "Error running Ruby tests: " ++ m)
  else
    match subp o ["ruby", "-Itest", "-e",
        "Dir.glob(\x27./test/**/*_test.rb\x27).each \x7b|f| require f\x7d"] repo_path 120 with
    | .ret c so se => (c, so ++ se)
    | .timeoutExpired m => (1, "Error running Ruby tests: " ++ m)
    | .fileNotFound m => (1, "Error running Ruby tests: " ++ m)

/-- The per-file `ruby -c` loop of `build_ruby_project` (timeout 30). -/
def ruby_lint_loop (o : SubprocOracle) (repo_path : String) : List String → Int × String
  | [] => (0, "All Ruby files syntax check passed")
  | f :: rest =>
    match subp o ["ruby", "-c", f] repo_path 30 with
    | .ret c so se => if c ≠ 0 then (c, so ++ se) else ruby_lint_loop o repo_path rest
    | .timeoutExpired m => (1, "Error building Ruby project: " ++ m)
    | .fileNotFound m => (1, "Error building Ruby project: " ++ m)

/-- `build_ruby_project`: syntax-check every `.rb` source file. -/
def build_ruby_project (_fs : PathOracle) (o : SubprocOracle) (repo_path : String)
    (pa : ProjectProfile) : Int × String :=
  let ruby_files := pa.source_files.filter (fun f => strEndsWith f ".rb")
  if ruby_files.isEmpty then (0, "No Ruby files found")
  else ruby_lint_loop o repo_path ruby_files

/-- `run_ruby_linting`: rubocop (timeout 60); on exception fall back to
the syntax check. -/
def run_ruby_linting (fs : PathOracle) (o : SubprocOracle) (repo_path : String)
    (pa : ProjectProfile) : Int × String :=
  match subp o ["rubocop"] repo_path 60 with
  | .ret c so se => (c, so ++ se)
  | .timeoutExpired _ => build_ruby_project fs o repo_path pa
  | .fileNotFound _ => build_ruby_project fs o repo_path pa

/-- `run_project_tests` of src/tools/code_runner.py: language dispatch;
a language with no registered runner yields exit code 0. -/
def run_project_tests (fs : PathOracle) (o : SubprocOracle) (repo_path : String)
    (project_analysis : ProjectProfile) : Int × String :=
  let language := project_analysis.primary_language
  if language = "python" then run_python_tests fs o repo_path project_analysis
  else if language = "javascript" then run_javascript_tests fs o repo_path project_analysis
  else if language = "typescript" then run_typescript_tests fs o repo_path project_analysis
  else if language = "csharp" then run_csharp_tests fs o repo_path project_analysis
  else if language = "java" then run_java_tests fs o repo_path project_analysis
  else if language = "go" then run_go_tests fs o repo_path project_analysis
  else if language = "rust" then run_rust_tests fs o repo_path project_analysis
  else if language = "php" then run_php_tests fs o repo_path project_analysis
  else if language = "ruby" then run_ruby_tests fs o repo_path project_analysis
  else (0, "No test runner available for " ++ language)

/-- `run_project_linting` of src/tools/code_runner.py: language
dispatch; a language with no registered linter yields exit code 0. -/
def run_project_linting (fs : PathOracle) (o : SubprocOracle) (repo_path : String)
    (project_analysis : ProjectProfile) : Int × String :=
  let language := project_analysis.primary_language
  if language = "python" then run_python_linting fs o repo_path project_analysis
  else if language = "javascript" then run_javascript_linting fs o repo_path project_analysis
  else if language = "typescript" then run_typescript_linting fs o repo_path project_analysis
  else if language = "csharp" then run_csharp_linting fs o repo_path project_analysis
  else if language = "java" then run_java_linting fs o repo_path project_analysis
  else if language = "go" then run_go_linting fs o repo_path project_analysis
  else if language = "rust" then run_rust_linting fs o repo_path project_analysis
  else if language = "php" then run_php_linting fs o repo_path project_analysis
  else if language = "ruby" then run_ruby_linting fs o repo_path project_analysis
  else (0, "No linter available for " ++ language)

end code_runner

/-! ## The verification agents on top of the dispatch layer -/

/-- `tests_node` of src/agents/test_agent.py: analyze the project (the
tree below `repo_path` is `fsys`), run the language-appropriate linter
and tests, and record both flags and log entries. -/
def tests_node (fsys : Fs) (fs : PathOracle) (o : SubprocOracle) (s : BuildState) :
    BuildState :=
  let project_analysis := analyze_project_structure fsys
  let language := project_analysis.primary_language
  let lintRes := code_runner.run_project_linting fs o s.repo_path project_analysis
  let testsRes := code_runner.run_project_tests fs o s.repo_path project_analysis
  tests_apply language lintRes testsRes s

/-- `security_node` of src/agents/security.py: always `run_pip_audit` on
the repository path (an uncaught runner exception propagates). -/
def security_node (fs : PathOracle) (o : SubprocOracle) (s : BuildState) :
    Except String BuildState :=
  match runners.run_pip_audit fs o s.repo_path with
  | .ok res => .ok (security_apply res s)
  | .error e => .error e

/-! ## Proof devices and concrete instances

Ranking functions for the termination argument, the retry-counter
invariant, and the concrete oracles/inputs used by counterexamples and
witnesses.  These are verification artifacts, not part of the source
embedding. -/

/-- Worst-case remaining step executions from the dev vertex at retry
count `a` (about to enter dev). -/
def drank (a : Nat) : Nat := if a < 3 then 10 - 3 * a else 4

/-- Worst-case remaining step executions from the tests vertex. -/
def trank (a : Nat) : Nat := if a < 3 then 12 - 3 * a else 3

/-- Worst-case remaining step executions from the security vertex. -/
def srank (a : Nat) : Nat := if a < 3 then 11 - 3 * a else 2

/-- Worst-case remaining step executions from each vertex. -/
def vrank : Vertex → Nat → Nat
  | .plan, a => 2 + drank a
  | .design, a => 1 + drank a
  | .dev, a => drank a
  | .tests, a => trank a
  | .security, a => srank a
  | .pr, _ => 1
  | .END, _ => 0

/-- Rank of a configuration. -/
def crank (c : Vertex × BuildState) : Nat := vrank c.1 c.2.dev_attempts

/-- Reachability invariant for the retry counter: at most 3 overall, at
most 2 when about to (re-)enter dev. -/
def devInv (c : Vertex × BuildState) : Prop :=
  c.2.dev_attempts ≤ 3
  ∧ (c.1 = .dev → c.2.dev_attempts ≤ 2)
  ∧ ((c.1 = .plan ∨ c.1 = .design) → c.2.dev_attempts ≤ 2)

/-- A run oracle in which every verification fails only at the security
gate (tests and lint always pass, the audit always fails). -/
def cxEnvSec : RunEnv :=
  { plannerPrd := fun _ => ""
    plannerTasks := fun _ => []
    plannerLogs := fun _ => []
    rfcText := fun _ => ""
    devBranch := fun _ => "feat/auto-agent"
    devLogs := fun _ => []
    lang := fun _ => "python"
    lintRes := fun _ => (0, "")
    testsRes := fun _ => (0, "")
    secRes := fun _ => (1, "")
    prUrl := fun _ => "http://pr" }

/-- A run oracle in which the test gate always fails (and the audit
passes). -/
def cxEnvTests : RunEnv :=
  { plannerPrd := fun _ => ""
    plannerTasks := fun _ => []
    plannerLogs := fun _ => []
    rfcText := fun _ => ""
    devBranch := fun _ => "feat/auto-agent"
    devLogs := fun _ => []
    lang := fun _ => "python"
    lintRes := fun _ => (0, "")
    testsRes := fun _ => (1, "")
    secRes := fun _ => (0, "")
    prUrl := fun _ => "http://pr" }

/-- A filesystem-existence oracle on which nothing exists. -/
def noFs : PathOracle := fun _ => false

/-- A subprocess oracle on which every executable is missing. -/
def allFnf : SubprocOracle := fun _ => .fileNotFound "err"

/-- A minimal project profile for a given primary language. -/
def mkPA (lang : String) : ProjectProfile :=
  { primary_language := lang
    secondary_languages := []
    project_type := "unknown"
    frameworks := []
    build_tools := []
    package_managers := []
    config_files := []
    source_files := []
    test_files := []
    documentation_files := []
    has_tests := false
    entry_points := [] }

/-- A subprocess oracle on which `cargo audit` succeeds and everything
else (in particular `pip-audit`) reports vulnerabilities. -/
def auditOracle : SubprocOracle := fun c =>
  if c.cmd = ["cargo", "audit"] then .ret 0 "ok" "" else .ret 1 "vulns found" ""

/-- A subprocess oracle that succeeds exactly on invocations carrying a
bounded timeout and fails on invocations carrying none. -/
def timeoutProbe : SubprocOracle := fun c =>
  match c.timeout with
  | some _ => .ret 0 "" ""
  | none => .ret 1 "unbounded call" ""

/-- A subprocess oracle that answers bounded-timeout invocations with a
success and unbounded ones with a missing executable. -/
def probeBounded : SubprocOracle := fun c =>
  match c.timeout with
  | some _ => .ret 0 "bounded" ""
  | none => .fileNotFound "err"

/-- A subprocess oracle that succeeds on everything. -/
def allOk : SubprocOracle := fun _ => .ret 0 "" ""

/-- The effective upstream id of a task record: the `task_id` or `id`
value, stringified, when the record is a dict carrying one. -/
def effId : JsonValue → Option String
  | .obj kvs =>
    match objGet kvs "task_id" with
    | some v => some (pyStr v)
    | none => (objGet kvs "id").map pyStr
  | _ => none

/-- A planner response whose task list carries a duplicated id and an
empty id. -/
def c8raw : String :=
  "\x7b\"prd_md\": \"p\", \"tasks\": [\x7b\"id\": \"t\", \"title\": \"a\"\x7d, \x7b\"id\": \"t\", \"title\": \"b\"\x7d, \x7b\"id\": \"\", \"title\": \"c\"\x7d]\x7d"

/-- A tree with one dependency-cache file. -/
def c9fs1 : Fs :=
  [ (["src", "main.py"], "import fastapi"),
    (["node_modules", "junk.js"], "cached x") ]

/-- The same tree with entirely different `node_modules` contents. -/
def c9fs2 : Fs :=
  [ (["src", "main.py"], "import fastapi"),
    (["node_modules", "other.js"], "cached y"),
    (["node_modules", "sub", "deep.py"], "cached z") ]

/-- The embedded payload of the C4 witness. -/
def c4payload : String := "\x7b\"intent\": \"plan\"\x7d"

/-- The C4 witness payload wrapped in prose. -/
def c4raw : String := "Sure! Here is the JSON: " ++ c4payload ++ " Hope that helps."

/-! # Theorems -/

/-! ## Frame facts about the node transformers -/

theorem tests_next_da (s : BuildState) : (tests_next s).2.dev_attempts = s.dev_attempts := by
  unfold tests_next; split_ifs <;> rfl

theorem sec_next_da (s : BuildState) : (sec_next s).2.dev_attempts = s.dev_attempts := by
  unfold sec_next; split_ifs <;> rfl

theorem dev_node_da (b : String) (bl : List String) (s : BuildState) :
    (dev_node b bl s).dev_attempts = s.dev_attempts + 1 := by
  unfold dev_node; split_ifs <;> rfl

theorem planner_apply_da (p : String) (ts : List TaskR) (pl : List String) (s : BuildState) :
    (planner_apply p ts pl s).dev_attempts = s.dev_attempts := rfl

theorem architect_apply_da (r : String) (s : BuildState) :
    (architect_apply r s).dev_attempts = s.dev_attempts := rfl

theorem tests_apply_da (l : String) (lr tr : Int × String) (s : BuildState) :
    (tests_apply l lr tr s).dev_attempts = s.dev_attempts := rfl

theorem security_apply_da (r : Int × String) (s : BuildState) :
    (security_apply r s).dev_attempts = s.dev_attempts := rfl

theorem pr_apply_da (u : String) (s : BuildState) :
    (pr_apply u s).dev_attempts = s.dev_attempts := rfl

/-- C1: within a run `dev_attempts` never decreases — the dev step is
the only transformer that changes it, incrementing by exactly one per
entry — and once `dev_attempts ≥ 3` neither `tests_next` nor `sec_next`
routes back to the implement (dev) step, whatever the
`tests_ok`/`lint_ok`/`sec_ok` flags hold. -/
theorem c1_retry_ceiling :
    (∀ s : BuildState, 3 ≤ s.dev_attempts →
      (tests_next s).1 ≠ "dev" ∧ (sec_next s).1 ≠ "dev")
    ∧ (∀ b bl s, (dev_node b bl s).dev_attempts = s.dev_attempts + 1)
    ∧ (∀ p ts pl s, (planner_apply p ts pl s).dev_attempts = s.dev_attempts)
    ∧ (∀ r s, (architect_apply r s).dev_attempts = s.dev_attempts)
    ∧ (∀ l lr tr s, (tests_apply l lr tr s).dev_attempts = s.dev_attempts)
    ∧ (∀ r s, (security_apply r s).dev_attempts = s.dev_attempts)
    ∧ (∀ u s, (pr_apply u s).dev_attempts = s.dev_attempts)
    ∧ (∀ env k c, c.2.dev_attempts ≤ (stepGraph env k c).2.dev_attempts) := by
  refine ⟨?_, dev_node_da, planner_apply_da, architect_apply_da, tests_apply_da,
    security_apply_da, pr_apply_da, ?_⟩
  · intro s h
    unfold tests_next sec_next
    rw [if_pos h, if_pos h]
    constructor
    · show ("security" : String) ≠ "dev"
      decide
    · show ("pr" : String) ≠ "dev"
      decide
  · intro env k c
    obtain ⟨v, s⟩ := c
    cases v with
    | plan => exact Nat.le_of_eq (planner_apply_da _ _ _ _).symm
    | design => exact Nat.le_of_eq (architect_apply_da _ _).symm
    | dev =>
      show s.dev_attempts ≤ (dev_node (env.devBranch k) (env.devLogs k) s).dev_attempts
      rw [dev_node_da]; omega
    | tests =>
      show s.dev_attempts ≤
        (tests_next (tests_apply (env.lang k) (env.lintRes k) (env.testsRes k) s)).2.dev_attempts
      rw [tests_next_da, tests_apply_da]
    | security =>
      show s.dev_attempts ≤ (sec_next (security_apply (env.secRes k) s)).2.dev_attempts
      rw [sec_next_da, security_apply_da]
    | pr => exact Nat.le_of_eq (pr_apply_da _ _).symm
    | END => exact Nat.le_refl _

/-- Witness for C1 at a concrete state with `dev_attempts = 3`. -/
theorem c1_retry_ceiling_witness :
    (tests_next { initial_state "r" "p" with dev_attempts := 3 }).1 ≠ "dev"
    ∧ (sec_next { initial_state "r" "p" with dev_attempts := 3 }).1 ≠ "dev" :=
  c1_retry_ceiling.1 { initial_state "r" "p" with dev_attempts := 3 } (by decide)

theorem tests_apply_logs (l : String) (lr tr : Int × String) (s : BuildState) :
    ∃ e₁ e₂, (tests_apply l lr tr s).logs = s.logs ++ [e₁, e₂] := by
  refine ⟨"Linter (" ++ l ++ "): exit=" ++ toString lr.1 ++ "\n" ++ pyTrunc 1000 lr.2,
          "Tests (" ++ l ++ "): exit=" ++ toString tr.1 ++ "\n" ++ pyTrunc 1000 tr.2, ?_⟩
  show (s.logs ++ [_]) ++ [_] = s.logs ++ _
  rw [List.append_assoc]
  rfl

/-- C10: the tests step changes only the `lint_ok`/`tests_ok` flags and
appends exactly its two log entries, and the security step changes only
`sec_ok` and appends exactly its one entry; every other state field is
returned unchanged and the existing log entries are preserved in order. -/
theorem c10_frame :
    (∀ fsys fs o s,
      (tests_node fsys fs o s).request = s.request
      ∧ (tests_node fsys fs o s).repo_path = s.repo_path
      ∧ (tests_node fsys fs o s).prd = s.prd
      ∧ (tests_node fsys fs o s).rfc = s.rfc
      ∧ (tests_node fsys fs o s).tasks = s.tasks
      ∧ (tests_node fsys fs o s).branch = s.branch
      ∧ (tests_node fsys fs o s).pr_url = s.pr_url
      ∧ (tests_node fsys fs o s).dev_attempts = s.dev_attempts
      ∧ (tests_node fsys fs o s).sec_ok = s.sec_ok
      ∧ ∃ e₁ e₂, (tests_node fsys fs o s).logs = s.logs ++ [e₁, e₂])
    ∧ (∀ fs o s s', security_node fs o s = .ok s' →
      s'.request = s.request
      ∧ s'.repo_path = s.repo_path
      ∧ s'.prd = s.prd
      ∧ s'.rfc = s.rfc
      ∧ s'.tasks = s.tasks
      ∧ s'.branch = s.branch
      ∧ s'.pr_url = s.pr_url
      ∧ s'.dev_attempts = s.dev_attempts
      ∧ s'.lint_ok = s.lint_ok
      ∧ s'.tests_ok = s.tests_ok
      ∧ ∃ e, s'.logs = s.logs ++ [e]) := by
  constructor
  · intro fsys fs o s
    exact ⟨rfl, rfl, rfl, rfl, rfl, rfl, rfl, rfl, rfl, tests_apply_logs _ _ _ s⟩
  · intro fs o s s' h
    unfold security_node at h
    cases hres : runners.run_pip_audit fs o s.repo_path with
    | ok res =>
      rw [hres] at h
      cases h
      exact ⟨rfl, rfl, rfl, rfl, rfl, rfl, rfl, rfl, rfl, rfl, _, rfl⟩
    | error e =>
      rw [hres] at h
      cases h

/-- Witness for C10's security conjunct: a concrete environment on which
`security_node` returns successfully. -/
theorem c10_frame_witness :
    (security_apply (1, "pip-audit not found - skipping security check")
        (initial_state "r" "p")).request = (initial_state "r" "p").request
    ∧ (security_apply (1, "pip-audit not found - skipping security check")
        (initial_state "r" "p")).repo_path = (initial_state "r" "p").repo_path
    ∧ (security_apply (1, "pip-audit not found - skipping security check")
        (initial_state "r" "p")).prd = (initial_state "r" "p").prd
    ∧ (security_apply (1, "pip-audit not found - skipping security check")
        (initial_state "r" "p")).rfc = (initial_state "r" "p").rfc
    ∧ (security_apply (1, "pip-audit not found - skipping security check")
        (initial_state "r" "p")).tasks = (initial_state "r" "p").tasks
    ∧ (security_apply (1, "pip-audit not found - skipping security check")
        (initial_state "r" "p")).branch = (initial_state "r" "p").branch
    ∧ (security_apply (1, "pip-audit not found - skipping security check")
        (initial_state "r" "p")).pr_url = (initial_state "r" "p").pr_url
    ∧ (security_apply (1, "pip-audit not found - skipping security check")
        (initial_state "r" "p")).dev_attempts = (initial_state "r" "p").dev_attempts
    ∧ (security_apply (1, "pip-audit not found - skipping security check")
        (initial_state "r" "p")).lint_ok = (initial_state "r" "p").lint_ok
    ∧ (security_apply (1, "pip-audit not found - skipping security check")
        (initial_state "r" "p")).tests_ok = (initial_state "r" "p").tests_ok
    ∧ ∃ e, (security_apply (1, "pip-audit not found - skipping security check")
        (initial_state "r" "p")).logs = (initial_state "r" "p").logs ++ [e] :=
  c10_frame.2 noFs allFnf (initial_state "r" "p")
    (security_apply (1, "pip-audit not found - skipping security check")
      (initial_state "r" "p")) (by rfl)

/-! ## Termination of the orchestration graph -/

theorem tests_next_cases (s : BuildState) :
    ((tests_next s).1 = "security" ∧ (3 ≤ s.dev_attempts ∨ (s.tests_ok && s.lint_ok) = true))
    ∨ ((tests_next s).1 = "dev" ∧ ¬ 3 ≤ s.dev_attempts) := by
  unfold tests_next
  split_ifs with h1 h2
  · exact Or.inl ⟨rfl, Or.inl h1⟩
  · exact Or.inl ⟨rfl, Or.inr h2⟩
  · exact Or.inr ⟨rfl, h1⟩

theorem sec_next_cases (s : BuildState) :
    ((sec_next s).1 = "pr" ∧ (3 ≤ s.dev_attempts ∨ s.sec_ok = true))
    ∨ ((sec_next s).1 = "dev" ∧ ¬ 3 ≤ s.dev_attempts) := by
  unfold sec_next
  split_ifs with h1 h2
  · exact Or.inl ⟨rfl, Or.inl h1⟩
  · exact Or.inl ⟨rfl, Or.inr h2⟩
  · exact Or.inr ⟨rfl, h1⟩

theorem crank_step (env : RunEnv) (k : Nat) (c : Vertex × BuildState) (h : c.1 ≠ .END) :
    crank (stepGraph env k c) < crank c := by
  obtain ⟨v, s⟩ := c
  cases v with
  | plan =>
    show vrank .design (planner_apply (env.plannerPrd k) (env.plannerTasks k)
        (env.plannerLogs k) s).dev_attempts < vrank .plan s.dev_attempts
    rw [planner_apply_da]
    simp only [vrank]
    omega
  | design =>
    show vrank .dev (architect_apply (env.rfcText k) s).dev_attempts
      < vrank .design s.dev_attempts
    rw [architect_apply_da]
    simp only [vrank]
    omega
  | dev =>
    show vrank .tests (dev_node (env.devBranch k) (env.devLogs k) s).dev_attempts
      < vrank .dev s.dev_attempts
    rw [dev_node_da]
    simp only [vrank, trank, drank]
    split_ifs <;> omega
  | tests =>
    show vrank (if (tests_next (tests_apply (env.lang k) (env.lintRes k) (env.testsRes k) s)).1
        = "dev" then Vertex.dev else Vertex.security)
      (tests_next (tests_apply (env.lang k) (env.lintRes k) (env.testsRes k) s)).2.dev_attempts
      < vrank .tests s.dev_attempts
    have hda : (tests_apply (env.lang k) (env.lintRes k) (env.testsRes k) s).dev_attempts
        = s.dev_attempts := tests_apply_da _ _ _ _
    rcases tests_next_cases (tests_apply (env.lang k) (env.lintRes k) (env.testsRes k) s) with
      ⟨hr, _⟩ | ⟨hr, hlt⟩
    · rw [hr, if_neg (by decide : ¬ ("security" : String) = "dev")]
      rw [tests_next_da, hda]
      simp only [vrank, srank, trank]
      split_ifs <;> omega
    · rw [hr, if_pos rfl]
      rw [tests_next_da, hda]
      rw [hda] at hlt
      simp only [vrank, drank, trank]
      split_ifs <;> omega
  | security =>
    show vrank (if (sec_next (security_apply (env.secRes k) s)).1 = "dev"
        then Vertex.dev else Vertex.pr)
      (sec_next (security_apply (env.secRes k) s)).2.dev_attempts
      < vrank .security s.dev_attempts
    have hda : (security_apply (env.secRes k) s).dev_attempts = s.dev_attempts :=
      security_apply_da _ _
    rcases sec_next_cases (security_apply (env.secRes k) s) with ⟨hr, _⟩ | ⟨hr, hlt⟩
    · rw [hr, if_neg (by decide : ¬ ("pr" : String) = "dev")]
      rw [sec_next_da, hda]
      simp only [vrank, srank]
      split_ifs <;> omega
    · rw [hr, if_pos rfl]
      rw [sec_next_da, hda]
      rw [hda] at hlt
      simp only [vrank, drank, srank]
      split_ifs <;> omega
  | pr =>
    show vrank .END (pr_apply (env.prUrl k) s).dev_attempts < vrank .pr s.dev_attempts
    simp only [vrank]
    omega
  | END => exact absurd rfl h

theorem crank_zero {c : Vertex × BuildState} (h : crank c = 0) : c.1 = .END := by
  obtain ⟨v, s⟩ := c
  cases v with
  | END => rfl
  | plan =>
    exfalso
    have h2 : vrank Vertex.plan s.dev_attempts = 0 := h
    simp only [vrank, drank] at h2
    split_ifs at h2 <;> omega
  | design =>
    exfalso
    have h2 : vrank Vertex.design s.dev_attempts = 0 := h
    simp only [vrank, drank] at h2
    split_ifs at h2 <;> omega
  | dev =>
    exfalso
    have h2 : vrank Vertex.dev s.dev_attempts = 0 := h
    simp only [vrank, drank] at h2
    split_ifs at h2 <;> omega
  | tests =>
    exfalso
    have h2 : vrank Vertex.tests s.dev_attempts = 0 := h
    simp only [vrank, trank] at h2
    split_ifs at h2 <;> omega
  | security =>
    exfalso
    have h2 : vrank Vertex.security s.dev_attempts = 0 := h
    simp only [vrank, srank] at h2
    split_ifs at h2 <;> omega
  | pr =>
    exfalso
    have h2 : vrank Vertex.pr s.dev_attempts = 0 := h
    simp only [vrank] at h2
    omega

theorem runSteps_END_stable (env : RunEnv) (n : Nat) :
    ∀ (k : Nat) (c : Vertex × BuildState), c.1 = .END → (runSteps env n k c).1 = .END := by
  induction n with
  | zero => intro k c h; exact h
  | succ n ih =>
    intro k c h
    obtain ⟨v, s⟩ := c
    cases v with
    | END => exact ih (k + 1) (.END, s) rfl
    | plan => simp at h
    | design => simp at h
    | dev => simp at h
    | tests => simp at h
    | security => simp at h
    | pr => simp at h

theorem runSteps_reaches (env : RunEnv) (n : Nat) :
    ∀ (k : Nat) (c : Vertex × BuildState), crank c ≤ n → (runSteps env n k c).1 = .END := by
  induction n with
  | zero =>
    intro k c h
    exact crank_zero (Nat.le_zero.mp h)
  | succ n ih =>
    intro k c h
    by_cases hEnd : c.1 = .END
    · exact runSteps_END_stable env (n + 1) k c hEnd
    · show (runSteps env n (k + 1) (stepGraph env k c)).1 = .END
      have := crank_step env k c hEnd
      exact ih (k + 1) (stepGraph env k c) (by omega)

theorem devInv_step (env : RunEnv) (k : Nat) (c : Vertex × BuildState) (h : devInv c) :
    devInv (stepGraph env k c) := by
  obtain ⟨v, s⟩ := c
  obtain ⟨h3, hdev, hpd⟩ := h
  cases v with
  | plan =>
    refine ⟨?_, ?_, ?_⟩
    · rw [show (stepGraph env k (.plan, s)).2.dev_attempts = s.dev_attempts from rfl]
      exact h3
    · intro hv; simp [stepGraph] at hv
    · intro _
      rw [show (stepGraph env k (.plan, s)).2.dev_attempts = s.dev_attempts from rfl]
      exact hpd (Or.inl rfl)
  | design =>
    refine ⟨?_, ?_, ?_⟩
    · rw [show (stepGraph env k (.design, s)).2.dev_attempts = s.dev_attempts from rfl]
      exact h3
    · intro _
      rw [show (stepGraph env k (.design, s)).2.dev_attempts = s.dev_attempts from rfl]
      exact hpd (Or.inr rfl)
    · intro hv; rcases hv with hv | hv <;> simp [stepGraph] at hv
  | dev =>
    have hd : s.dev_attempts ≤ 2 := hdev rfl
    refine ⟨?_, ?_, ?_⟩
    · rw [show (stepGraph env k (.dev, s)).2.dev_attempts
          = (dev_node (env.devBranch k) (env.devLogs k) s).dev_attempts from rfl,
        dev_node_da]
      omega
    · intro hv; simp [stepGraph] at hv
    · intro hv; rcases hv with hv | hv <;> simp [stepGraph] at hv
  | tests =>
    have hda : (tests_apply (env.lang k) (env.lintRes k) (env.testsRes k) s).dev_attempts
        = s.dev_attempts := tests_apply_da _ _ _ _
    rcases tests_next_cases (tests_apply (env.lang k) (env.lintRes k) (env.testsRes k) s) with
      ⟨hr, _⟩ | ⟨hr, hlt⟩
    · refine ⟨?_, ?_, ?_⟩
      · show (tests_next _).2.dev_attempts ≤ 3
        rw [tests_next_da, hda]; exact h3
      · show (if (tests_next _).1 = "dev" then Vertex.dev else Vertex.security) = .dev →
          (tests_next _).2.dev_attempts ≤ 2
        rw [hr, if_neg (by decide : ¬ ("security" : String) = "dev")]
        intro hv; exact absurd hv (by decide)
      · show ((if (tests_next _).1 = "dev" then Vertex.dev else Vertex.security) = .plan
            ∨ (if (tests_next _).1 = "dev" then Vertex.dev else Vertex.security) = .design) →
          (tests_next _).2.dev_attempts ≤ 2
        rw [hr, if_neg (by decide : ¬ ("security" : String) = "dev")]
        intro hv; rcases hv with hv | hv <;> exact absurd hv (by decide)
    · rw [hda] at hlt
      refine ⟨?_, ?_, ?_⟩
      · show (tests_next _).2.dev_attempts ≤ 3
        rw [tests_next_da, hda]; exact h3
      · intro _
        show (tests_next _).2.dev_attempts ≤ 2
        rw [tests_next_da, hda]; omega
      · show ((if (tests_next _).1 = "dev" then Vertex.dev else Vertex.security) = .plan
            ∨ (if (tests_next _).1 = "dev" then Vertex.dev else Vertex.security) = .design) →
          (tests_next _).2.dev_attempts ≤ 2
        rw [hr, if_pos rfl]
        intro hv; rcases hv with hv | hv <;> exact absurd hv (by decide)
  | security =>
    have hda : (security_apply (env.secRes k) s).dev_attempts = s.dev_attempts :=
      security_apply_da _ _
    rcases sec_next_cases (security_apply (env.secRes k) s) with ⟨hr, _⟩ | ⟨hr, hlt⟩
    · refine ⟨?_, ?_, ?_⟩
      · show (sec_next _).2.dev_attempts ≤ 3
        rw [sec_next_da, hda]; exact h3
      · show (if (sec_next _).1 = "dev" then Vertex.dev else Vertex.pr) = .dev →
          (sec_next _).2.dev_attempts ≤ 2
        rw [hr, if_neg (by decide : ¬ ("pr" : String) = "dev")]
        intro hv; exact absurd hv (by decide)
      · show ((if (sec_next _).1 = "dev" then Vertex.dev else Vertex.pr) = .plan
            ∨ (if (sec_next _).1 = "dev" then Vertex.dev else Vertex.pr) = .design) →
          (sec_next _).2.dev_attempts ≤ 2
        rw [hr, if_neg (by decide : ¬ ("pr" : String) = "dev")]
        intro hv; rcases hv with hv | hv <;> exact absurd hv (by decide)
    · rw [hda] at hlt
      refine ⟨?_, ?_, ?_⟩
      · show (sec_next _).2.dev_attempts ≤ 3
        rw [sec_next_da, hda]; exact h3
      · intro _
        show (sec_next _).2.dev_attempts ≤ 2
        rw [sec_next_da, hda]; omega
      · show ((if (sec_next _).1 = "dev" then Vertex.dev else Vertex.pr) = .plan
            ∨ (if (sec_next _).1 = "dev" then Vertex.dev else Vertex.pr) = .design) →
          (sec_next _).2.dev_attempts ≤ 2
        rw [hr, if_pos rfl]
        intro hv; rcases hv with hv | hv <;> exact absurd hv (by decide)
  | pr =>
    refine ⟨?_, ?_, ?_⟩
    · rw [show (stepGraph env k (.pr, s)).2.dev_attempts = s.dev_attempts from rfl]
      exact h3
    · intro hv; simp [stepGraph] at hv
    · intro hv; rcases hv with hv | hv <;> simp [stepGraph] at hv
  | END =>
    refine ⟨h3, ?_, ?_⟩
    · intro hv; simp [stepGraph] at hv
    · intro hv; rcases hv with hv | hv <;> simp [stepGraph] at hv

theorem devInv_run (env : RunEnv) (n : Nat) :
    ∀ (k : Nat) (c : Vertex × BuildState), devInv c → devInv (runSteps env n k c) := by
  induction n with
  | zero => intro k c h; exact h
  | succ n ih =>
    intro k c h
    exact ih (k + 1) (stepGraph env k c) (devInv_step env k c h)

/-- C2 (amended): for every sequence of verification outcomes the
traversal from plan reaches assemble-pr within `3 × ceiling + 3 = 12`
step executions (the spec's `2 × ceiling + 4 = 10` holds only when every
retry is triggered at the tests gate), the final `dev_attempts` is at
most 3, and each implement entry is followed immediately by verify-tests
and by at most two verification steps before the next implement entry or
assemble-pr. -/
theorem c2_amended (env : RunEnv) (req repo : String) :
    (runSteps env 12 0 (.plan, initial_state req repo)).1 = .END
    ∧ (runSteps env 12 0 (.plan, initial_state req repo)).2.dev_attempts ≤ 3
    ∧ (∀ k s, (stepGraph env k (.dev, s)).1 = .tests)
    ∧ (∀ k s, (stepGraph env k (.tests, s)).1 = .dev
        ∨ (stepGraph env k (.tests, s)).1 = .security)
    ∧ (∀ k s, (stepGraph env k (.security, s)).1 = .dev
        ∨ (stepGraph env k (.security, s)).1 = .pr) := by
  refine ⟨?_, ?_, ?_, ?_, ?_⟩
  · refine runSteps_reaches env 12 0 _ ?_
    show vrank Vertex.plan 0 ≤ 12
    decide
  · have hinv : devInv (.plan, initial_state req repo) := by
      refine ⟨?_, ?_, ?_⟩
      · show (0 : Nat) ≤ 3; omega
      · intro hv; simp at hv
      · intro _; show (0 : Nat) ≤ 2; omega
    exact (devInv_run env 12 0 _ hinv).1
  · intro k s; rfl
  · intro k s
    rcases tests_next_cases (tests_apply (env.lang k) (env.lintRes k) (env.testsRes k) s) with
      ⟨hr, _⟩ | ⟨hr, _⟩
    · refine Or.inr ?_
      show (if (tests_next _).1 = "dev" then Vertex.dev else Vertex.security) = .security
      rw [hr, if_neg (by decide : ¬ ("security" : String) = "dev")]
    · refine Or.inl ?_
      show (if (tests_next _).1 = "dev" then Vertex.dev else Vertex.security) = .dev
      rw [hr, if_pos rfl]
  · intro k s
    rcases sec_next_cases (security_apply (env.secRes k) s) with ⟨hr, _⟩ | ⟨hr, _⟩
    · refine Or.inr ?_
      show (if (sec_next _).1 = "dev" then Vertex.dev else Vertex.pr) = .pr
      rw [hr, if_neg (by decide : ¬ ("pr" : String) = "dev")]
    · refine Or.inl ?_
      show (if (sec_next _).1 = "dev" then Vertex.dev else Vertex.pr) = .dev
      rw [hr, if_pos rfl]

/-- C2 counterexample: when every retry is triggered at the security
gate the run takes 12 step executions (assemble-pr is not reached within
the claimed 10), and when the tests gate fails the implement entry is
followed by a single verification step before re-entering implement
(not exactly two). -/
theorem c2_counterexample :
    (runSteps cxEnvSec 10 0 (.plan, initial_state "build an api" "repo")).1 ≠ .END
    ∧ (runSteps cxEnvTests 3 0 (.plan, initial_state "build an api" "repo")).1 = .tests
    ∧ (runSteps cxEnvTests 4 0 (.plan, initial_state "build an api" "repo")).1 = .dev := by
  refine ⟨by decide, by decide, by decide⟩

/-! ## Malformed-output recovery (planner and router) -/

/-- C3 counterexample: on raw text with no braces at all, the router's
second `json.loads` call (on the extracted substring) fails and the
exception propagates to the caller, contrary to the claim that the
intent router never propagates a parse failure. -/
theorem c3_counterexample : route "hello" = .error "JSONDecodeError" := rfl

/-- C3 (amended): the planner step returns its well-formed deterministic
fallback record — and never propagates — on every raw text with no
recoverable JSON payload (no braces, or a brace substring that still
fails to parse); and whenever the router does return, its intent lies in
the fixed set (out-of-set intents are coerced to help).  The router,
however, propagates the parse failure on raw text with no recoverable
JSON payload. -/
theorem c3_amended :
    (∀ req raw, jsonLoads raw = none →
      (pyFind raw lbrace = -1 ∨ pyRfind raw rbrace + 1 = 0
        ∨ jsonLoads (pySlice raw (pyFind raw lbrace) (pyRfind raw rbrace + 1)) = none) →
      planner_normalize req raw = .ok (planner_fallback_out req))
    ∧ (∀ raw, jsonLoads raw = none →
      jsonLoads (pySlice raw (pyFind raw lbrace) (pyRfind raw rbrace + 1)) = none →
      route raw = .error "JSONDecodeError")
    ∧ (∀ raw r, route raw = .ok r → INTENTS.contains r.intent = true) := by
  refine ⟨?_, ?_, ?_⟩
  · intro req raw h hdisj
    have hfb : planner_normalize req raw =
        (match convert_tasks_field (planner_recover req raw) with
         | .ok data => plannerout_validate data
         | .error e => Except.error e) := rfl
    have hrec : planner_recover req raw = planner_fallback req := by
      unfold planner_recover
      rw [h]
      by_cases hb : pyFind raw lbrace = -1 ∨ pyRfind raw rbrace + 1 = 0
      · rw [if_pos hb]
      · rw [if_neg hb]
        rcases hdisj with h1 | h2 | h3
        · exact absurd (Or.inl h1) hb
        · exact absurd (Or.inr h2) hb
        · rw [h3]
    rw [hfb, hrec]
    rfl
  · intro raw h h2
    unfold route
    simp only [h, h2]
  · intro raw r h
    unfold route at h
    cases hl : jsonLoads raw with
    | some data =>
      simp only [hl] at h
      cases hv : routeout_validate data with
      | ok out =>
        simp only [hv] at h
        cases h
        unfold routeCoerce
        split_ifs with hc
        · exact hc
        · show INTENTS.contains "help" = true
          decide
      | error e => simp only [hv] at h; exact Except.noConfusion h
    | none =>
      simp only [hl] at h
      cases hl2 : jsonLoads (pySlice raw (pyFind raw lbrace) (pyRfind raw rbrace + 1)) with
      | some data =>
        simp only [hl2] at h
        cases hv : routeout_validate data with
        | ok out =>
          simp only [hv] at h
          cases h
          unfold routeCoerce
          split_ifs with hc
          · exact hc
          · show INTENTS.contains "help" = true
            decide
        | error e => simp only [hv] at h; exact Except.noConfusion h
      | none => simp only [hl2] at h; exact Except.noConfusion h

/-- Witness for C3 at concrete inputs: fallback for the planner, a
propagated failure for the router, and coercion to help. -/
theorem c3_amended_witness :
    planner_normalize "add a health check" "no json here at all"
      = .ok (planner_fallback_out "add a health check")
    ∧ route "no json here at all" = .error "JSONDecodeError"
    ∧ INTENTS.contains
        (RouteOutR.intent { intent := "help", args := [] }) = true :=
  ⟨c3_amended.1 "add a health check" "no json here at all" (by rfl) (Or.inl (by rfl)),
   c3_amended.2.1 "no json here at all" (by rfl) (by rfl),
   c3_amended.2.2 "\x7b\"intent\": \"bogus\"\x7d" { intent := "help", args := [] } (by rfl)⟩

/-! ## Brace extraction recovers an embedded payload exactly -/

theorem firstIdx_append (c : Char) (l₁ l₂ : List Char) (h : c ∉ l₁) :
    firstIdx? c (l₁ ++ l₂) = (firstIdx? c l₂).map (· + l₁.length) := by
  induction l₁ with
  | nil =>
    show firstIdx? c l₂ = (firstIdx? c l₂).map (· + ([] : List Char).length)
    cases hfi : firstIdx? c l₂ <;> simp [hfi]
  | cons a l₁ ih =>
    have hne : ¬ a = c := fun hh => h (hh ▸ List.mem_cons_self a l₁)
    have h2 : c ∉ l₁ := fun hh => h (List.mem_cons_of_mem a hh)
    show firstIdx? c (a :: (l₁ ++ l₂)) = _
    rw [show firstIdx? c (a :: (l₁ ++ l₂))
        = if a = c then some 0 else (firstIdx? c (l₁ ++ l₂)).map (· + 1) from rfl]
    rw [if_neg hne, ih h2]
    cases firstIdx? c l₂ with
    | none => rfl
    | some i =>
      show some (i + l₁.length + 1) = some (i + (l₁.length + 1))
      rw [Nat.add_assoc]

theorem firstIdx_cons_self (c : Char) (l : List Char) :
    firstIdx? c (c :: l) = some 0 := by
  show (if c = c then some 0 else (firstIdx? c l).map (· + 1)) = some 0
  rw [if_pos rfl]

/-- The first `lbrace` of `pre ++ (lbrace :: t) ++ post` sits at index
`pre.length` when `pre` carries none. -/
theorem firstIdx_sandwich (pre t post : List Char) (h : lbrace ∉ pre) :
    firstIdx? lbrace (pre ++ (lbrace :: t) ++ post) = some pre.length := by
  rw [List.append_assoc, firstIdx_append lbrace pre ((lbrace :: t) ++ post) h]
  rw [show (lbrace :: t) ++ post = lbrace :: (t ++ post) from rfl]
  rw [firstIdx_cons_self]
  show some (0 + pre.length) = some pre.length
  rw [Nat.zero_add]

/-- The last `rbrace` of `pre ++ payload ++ post` sits at index
`pre.length + payload.length - 1` when `post` carries none and `payload`
ends with it. -/
theorem lastIdx_sandwich (pre payload post : List Char) (hpost : rbrace ∉ post)
    (hlast : payload.getLast? = some rbrace) :
    lastIdx? rbrace (pre ++ payload ++ post)
      = some (pre.length + payload.length - 1) := by
  obtain ⟨t, ht⟩ : ∃ t, payload.reverse = rbrace :: t := by
    cases hrev : payload.reverse with
    | nil =>
      have : payload = [] := by
        have := congrArg List.reverse hrev
        simpa using this
      rw [this] at hlast
      cases hlast
    | cons a t =>
      refine ⟨t, ?_⟩
      have h1 : payload.reverse.head? = some a := by rw [hrev]; rfl
      rw [List.head?_reverse, hlast] at h1
      rw [Option.some.inj h1]
  unfold lastIdx?
  rw [show (pre ++ payload ++ post).reverse
      = post.reverse ++ (payload.reverse ++ pre.reverse) by
    rw [List.reverse_append, List.reverse_append]]
  rw [firstIdx_append rbrace post.reverse (payload.reverse ++ pre.reverse)
    (fun hh => hpost (List.mem_reverse.mp hh))]
  rw [ht]
  rw [show rbrace :: t ++ pre.reverse = rbrace :: (t ++ pre.reverse) from rfl]
  rw [firstIdx_cons_self]
  have hlen : (pre ++ payload ++ post).length
      = pre.length + payload.length + post.length := by
    simp [List.length_append]
    omega
  rw [hlen]
  have hq : 1 ≤ payload.length := by
    cases payload with
    | nil => cases hlast
    | cons a l => simp
  show some (pre.length + payload.length + post.length - 1 - (0 + post.reverse.length))
      = some (pre.length + payload.length - 1)
  rw [List.length_reverse]
  congr 1
  omega

/-- C4: when a well-formed JSON payload (starting with the first brace
and ending with the last) is embedded in prose that contains no other
braces, the first-brace/last-brace extraction of both the planner and
the router recovers exactly the payload, and the recovered record equals
the one obtained by parsing the payload directly. -/
theorem c4_embedded_payload (pre payload post req : String) (v : JsonValue)
    (hpre : lbrace ∉ pre.data)
    (hpost : rbrace ∉ post.data)
    (hhead : ∃ t, payload.data = lbrace :: t)
    (hlast : payload.data.getLast? = some rbrace)
    (hv : jsonLoads payload = some v)
    (hraw : jsonLoads (pre ++ payload ++ post) = none) :
    pySlice (pre ++ payload ++ post) (pyFind (pre ++ payload ++ post) lbrace)
        (pyRfind (pre ++ payload ++ post) rbrace + 1) = payload
    ∧ planner_recover req (pre ++ payload ++ post) = v
    ∧ route (pre ++ payload ++ post) = route payload := by
  obtain ⟨t, ht⟩ := hhead
  have hdata : (pre ++ payload ++ post).data = pre.data ++ payload.data ++ post.data := by
    rw [String.data_append, String.data_append]
  have hfind : pyFind (pre ++ payload ++ post) lbrace = (pre.data.length : Int) := by
    unfold pyFind
    rw [hdata, ht, firstIdx_sandwich pre.data t post.data hpre]
  have hq : 1 ≤ payload.data.length := by
    rw [ht]; simp
  have hrfind : pyRfind (pre ++ payload ++ post) rbrace
      = ((pre.data.length + payload.data.length - 1 : Nat) : Int) := by
    unfold pyRfind
    rw [hdata, lastIdx_sandwich pre.data payload.data post.data hpost hlast]
  have hslice : pySlice (pre ++ payload ++ post) (pyFind (pre ++ payload ++ post) lbrace)
      (pyRfind (pre ++ payload ++ post) rbrace + 1) = payload := by
    rw [hfind, hrfind]
    unfold pySlice pyClamp
    have hlen : (pre ++ payload ++ post).length
        = pre.data.length + payload.data.length + post.data.length := by
      show (pre ++ payload ++ post).data.length = _
      rw [hdata]
      simp [List.length_append]
      omega
    rw [hlen]
    have e1 : ((pre.data.length + payload.data.length - 1 : Nat) : Int) + 1
        = ((pre.data.length + payload.data.length : Nat) : Int) := by
      push_cast [hq]
      omega
    rw [e1]
    simp only [pySlice, pyClamp]
    split_ifs with h1 h2 <;> try (exfalso; omega)
    have hlo : ((pre.data.length : Int)).toNat
        ⊓ (pre.data.length + payload.data.length + post.data.length)
        = pre.data.length := by omega
    have hhi : (((pre.data.length + payload.data.length : Nat) : Int)).toNat
        ⊓ (pre.data.length + payload.data.length + post.data.length)
        = pre.data.length + payload.data.length := by omega
    rw [hlo, hhi]
    have e4 : pre.data.length + payload.data.length - pre.data.length
        = payload.data.length := by omega
    rw [e4, hdata]
    show String.mk (((pre.data ++ payload.data ++ post.data).drop pre.data.length).take
      payload.data.length) = payload
    rw [List.append_assoc, List.drop_left, List.take_left]
  refine ⟨hslice, ?_, ?_⟩
  · have hside : ¬ (pyFind (pre ++ payload ++ post) lbrace = -1
        ∨ pyRfind (pre ++ payload ++ post) rbrace + 1 = 0) := by
      intro hor
      rcases hor with h1 | h2
      · rw [hfind] at h1; omega
      · rw [hrfind] at h2; omega
    unfold planner_recover
    simp only [hraw]
    rw [if_neg hside]
    simp only [hslice, hv]
  · unfold route
    simp only [hraw]
    rw [hslice]
    simp only [hv]

/-- Witness for C4 at a concrete prose-wrapped payload. -/
theorem c4_embedded_payload_witness :
    planner_recover "req" c4raw = JsonValue.obj [("intent", JsonValue.str "plan")]
    ∧ route c4raw = route c4payload :=
  have h := c4_embedded_payload "Sure! Here is the JSON: " c4payload " Hope that helps."
    "req" (JsonValue.obj [("intent", JsonValue.str "plan")])
    (by decide) (by decide) ⟨"\"intent\": \"plan\"\x7d".data, rfl⟩ (by decide)
    (by rfl) (by rfl)
  ⟨h.2.1, h.2.2⟩

/-! ## Capability dispatch: missing tools and missing recipes -/

theorem catchFnf_fnf (o : SubprocOracle) (hall : ∀ c, ∃ m, o c = .fileNotFound m)
    (cmd : List String) (cwd handler : String) :
    catchFnf (shell_run o cmd cwd) handler = .ok (1, handler) := by
  obtain ⟨m, hm⟩ := hall { cmd := cmd, cwd := cwd, timeout := none }
  unfold catchFnf shell_run
  rw [hm]

/-- C5 counterexample: a missing external tool is reported with exit
code 1 (not the claimed neutral 0), and the `runners.run_tests`
dispatcher also returns exit code 1 for a language with no registered
recipe. -/
theorem c5_counterexample :
    runners.run_tests noFs allFnf "repo" (mkPA "elixir")
      = .ok (1, "No test runner configured for elixir")
    ∧ runners.run_python_tests noFs allFnf "repo"
      = .ok (1, "pytest not found - skipping tests") :=
  ⟨rfl, rfl⟩

/-- C5 (amended): dispatch for a language with no registered recipe
returns exit code 0 with an explanatory message in the
`code_runner` test/lint dispatchers and in the `runners` lint/audit
dispatchers, but exit code 1 in `runners.run_tests`; a missing external
tool yields exit code 1 with an explanatory message; in all these cases
no exception reaches the caller. -/
theorem c5_amended :
    (∀ fs o repo pa, pa.primary_language ∉
        (["python", "javascript", "typescript", "csharp", "java", "go", "rust"] : List String) →
      runners.run_tests fs o repo pa
        = .ok (1, "No test runner configured for " ++ pa.primary_language))
    ∧ (∀ fs o repo pa, pa.primary_language ∉
        (["python", "javascript", "typescript", "csharp", "java", "go", "rust"] : List String) →
      runners.run_linter fs o repo pa
        = .ok (0, "No linter configured for " ++ pa.primary_language))
    ∧ (∀ fs o repo pa, pa.primary_language ∉
        (["python", "javascript", "typescript", "csharp", "java", "go", "rust"] : List String) →
      runners.run_security_audit fs o repo pa
        = .ok (0, "No security audit configured for " ++ pa.primary_language))
    ∧ (∀ fs o repo pa, pa.primary_language ∉
        (["python", "javascript", "typescript", "csharp", "java", "go", "rust", "php", "ruby"]
          : List String) →
      code_runner.run_project_tests fs o repo pa
        = (0, "No test runner available for " ++ pa.primary_language))
    ∧ (∀ fs o repo pa, pa.primary_language ∉
        (["python", "javascript", "typescript", "csharp", "java", "go", "rust", "php", "ruby"]
          : List String) →
      code_runner.run_project_linting fs o repo pa
        = (0, "No linter available for " ++ pa.primary_language))
    ∧ (∀ fs o repo, (∀ c, ∃ m, o c = SubprocRes.fileNotFound m) →
      runners.run_python_tests fs o repo = .ok (1, "pytest not found - skipping tests")
      ∧ runners.run_python_linter fs o repo = .ok (1, "ruff not found - skipping lint check")
      ∧ runners.run_python_audit fs o repo
          = .ok (1, "pip-audit not found - skipping security check")) := by
  refine ⟨?_, ?_, ?_, ?_, ?_, ?_⟩
  · intro fs o repo pa h
    simp only [List.mem_cons, List.not_mem_nil, or_false] at h
    push_neg at h
    obtain ⟨h1, h2, h3, h4, h5, h6, h7⟩ := h
    unfold runners.run_tests
    rw [if_neg h1, if_neg (fun hor => hor.elim h2 h3), if_neg h4, if_neg h5, if_neg h6,
      if_neg h7]
  · intro fs o repo pa h
    simp only [List.mem_cons, List.not_mem_nil, or_false] at h
    push_neg at h
    obtain ⟨h1, h2, h3, h4, h5, h6, h7⟩ := h
    unfold runners.run_linter
    rw [if_neg h1, if_neg (fun hor => hor.elim h2 h3), if_neg h4, if_neg h5, if_neg h6,
      if_neg h7]
  · intro fs o repo pa h
    simp only [List.mem_cons, List.not_mem_nil, or_false] at h
    push_neg at h
    obtain ⟨h1, h2, h3, h4, h5, h6, h7⟩ := h
    unfold runners.run_security_audit
    rw [if_neg h1, if_neg (fun hor => hor.elim h2 h3), if_neg h4, if_neg h5, if_neg h6,
      if_neg h7]
  · intro fs o repo pa h
    simp only [List.mem_cons, List.not_mem_nil, or_false] at h
    push_neg at h
    obtain ⟨h1, h2, h3, h4, h5, h6, h7, h8, h9⟩ := h
    unfold code_runner.run_project_tests
    rw [if_neg h1, if_neg h2, if_neg h3, if_neg h4, if_neg h5, if_neg h6, if_neg h7,
      if_neg h8, if_neg h9]
  · intro fs o repo pa h
    simp only [List.mem_cons, List.not_mem_nil, or_false] at h
    push_neg at h
    obtain ⟨h1, h2, h3, h4, h5, h6, h7, h8, h9⟩ := h
    unfold code_runner.run_project_linting
    rw [if_neg h1, if_neg h2, if_neg h3, if_neg h4, if_neg h5, if_neg h6, if_neg h7,
      if_neg h8, if_neg h9]
  · intro fs o repo h
    refine ⟨?_, ?_, ?_⟩
    · unfold runners.run_python_tests
      simp only [catchFnf_fnf o h, ite_self]
    · exact catchFnf_fnf o h _ repo _
    · unfold runners.run_python_audit
      simp only [catchFnf_fnf o h, ite_self]

/-- Witness for C5 at the concrete unregistered language and a concrete
all-tools-missing oracle. -/
theorem c5_amended_witness :
    runners.run_tests noFs allFnf "repo" (mkPA "elixir")
      = .ok (1, "No test runner configured for " ++ (mkPA "elixir").primary_language)
    ∧ runners.run_linter noFs allFnf "repo" (mkPA "elixir")
      = .ok (0, "No linter configured for " ++ (mkPA "elixir").primary_language)
    ∧ code_runner.run_project_tests noFs allFnf "repo" (mkPA "elixir")
      = (0, "No test runner available for " ++ (mkPA "elixir").primary_language)
    ∧ runners.run_python_linter noFs allFnf "repo"
      = .ok (1, "ruff not found - skipping lint check") :=
  ⟨c5_amended.1 noFs allFnf "repo" (mkPA "elixir") (by decide),
   c5_amended.2.1 noFs allFnf "repo" (mkPA "elixir") (by decide),
   c5_amended.2.2.2.1 noFs allFnf "repo" (mkPA "elixir") (by decide),
   (c5_amended.2.2.2.2.2 noFs allFnf "repo" (fun _ => ⟨"err", rfl⟩)).2.1⟩

/-! ## The security step is not language-keyed -/

/-- C6 counterexample: for a Rust project the language-keyed dispatcher
would run `cargo audit` (which succeeds on this oracle), yet
`security_node` runs `pip-audit` and records a failure — the audit
command executed is not the one selected by the (capability, language)
mapping. -/
theorem c6_counterexample :
    security_node noFs auditOracle (initial_state "r" "repo")
      = .ok (security_apply (1, "vulns found") (initial_state "r" "repo"))
    ∧ (security_apply (1, "vulns found") (initial_state "r" "repo")).sec_ok = false
    ∧ runners.run_security_audit noFs auditOracle "repo" (mkPA "rust") = .ok (0, "ok") :=
  ⟨rfl, rfl, rfl⟩

/-- C6 (amended): the verify-security step always invokes the Python
`pip-audit` runner (`run_pip_audit`) on the repository path, regardless
of the detected language — its outcome depends only on `repo_path` — and
the language-keyed `run_security_audit` dispatcher (which would select
the cargo-audit recipe for Rust) exists but is not consulted by
`security_node`. -/
theorem c6_amended :
    (∀ fs o s res, runners.run_pip_audit fs o s.repo_path = .ok res →
      security_node fs o s = .ok (security_apply res s))
    ∧ (∀ fs o s₁ s₂ r₁ r₂, s₁.repo_path = s₂.repo_path →
      security_node fs o s₁ = .ok r₁ → security_node fs o s₂ = .ok r₂ →
      r₁.sec_ok = r₂.sec_ok)
    ∧ (∀ fs o repo pa, pa.primary_language = "rust" →
      runners.run_security_audit fs o repo pa = runners.run_rust_audit fs o repo) := by
  refine ⟨?_, ?_, ?_⟩
  · intro fs o s res h
    unfold security_node
    simp only [h]
  · intro fs o s₁ s₂ r₁ r₂ hrepo h1 h2
    unfold security_node at h1 h2
    cases hp : runners.run_pip_audit fs o s₁.repo_path with
    | ok res =>
      simp only [hp] at h1
      cases h1
      have hp2 : runners.run_pip_audit fs o s₂.repo_path = .ok res := by
        rw [← hrepo]; exact hp
      simp only [hp2] at h2
      cases h2
      rfl
    | error e =>
      simp only [hp] at h1
      exact Except.noConfusion h1
  · intro fs o repo pa hl
    unfold runners.run_security_audit
    rw [hl]
    simp

/-- Witness for C6 at the concrete Rust project and audit oracle. -/
theorem c6_amended_witness :
    security_node noFs auditOracle (initial_state "r" "repo")
      = .ok (security_apply (1, "vulns found" ++ "") (initial_state "r" "repo"))
    ∧ runners.run_security_audit noFs auditOracle "repo" (mkPA "rust")
      = runners.run_rust_audit noFs auditOracle "repo" :=
  ⟨c6_amended.1 noFs auditOracle (initial_state "r" "repo") (1, "vulns found" ++ "") (by rfl),
   c6_amended.2.2 noFs auditOracle "repo" (mkPA "rust") (by rfl)⟩

/-! ## Timeouts at the subprocess boundary -/

/-- C7 counterexample: the security-audit path issues its subprocess
invocation with no timeout at all.  On an oracle that succeeds exactly
on bounded-timeout invocations and fails on unbounded ones, the audit
records a failure — so its invocation carried no bounded timeout. -/
theorem c7_counterexample :
    shell_run timeoutProbe ["pip-audit"] "repo" = .ret 1 "unbounded call" ""
    ∧ security_node noFs timeoutProbe (initial_state "r" "repo")
      = .ok (security_apply (1, "unbounded call" ++ "") (initial_state "r" "repo"))
    ∧ (security_apply (1, "unbounded call" ++ "") (initial_state "r" "repo")).sec_ok
      = false :=
  ⟨rfl, rfl, rfl⟩

/-- C7 (amended): `shell.run` (used by every runner in
src/tools/runners.py, including the security-audit path) passes no
timeout — the security step's behavior depends only on how the world
answers unbounded invocations — while the code_runner Python test and
lint runners issue only invocations whose timeout is bounded between
60 and 120 seconds (code_runner timeouts overall range over 30–180). -/
theorem c7_amended :
    (∀ o cmd cwd, shell_run o cmd cwd = o { cmd := cmd, cwd := cwd, timeout := none })
    ∧ (∀ fs o o' s, (∀ c, c.timeout = none → o c = o' c) →
        security_node fs o s = security_node fs o' s)
    ∧ (∀ fs o o' repo pa, (∀ c t, c.timeout = some t → 60 ≤ t → t ≤ 120 → o c = o' c) →
        code_runner.run_python_tests fs o repo pa = code_runner.run_python_tests fs o' repo pa
        ∧ code_runner.run_python_linting fs o repo pa
          = code_runner.run_python_linting fs o' repo pa) := by
  refine ⟨fun _ _ _ => rfl, ?_, ?_⟩
  · intro fs o o' s h
    unfold security_node runners.run_pip_audit runners.run_python_audit catchFnf shell_run
    rw [h ⟨["pip-audit", "-r", "requirements.txt"], s.repo_path, none⟩ rfl,
        h ⟨["pip-audit"], s.repo_path, none⟩ rfl]
  · intro fs o o' repo pa h
    constructor
    · unfold code_runner.run_python_tests code_runner.subp
      rw [h ⟨["python", "-m", "pytest", "-v"], repo, some 120⟩ 120 rfl (by omega) (by omega),
          h ⟨["python", "-m", "unittest", "discover", "-v"], repo, some 120⟩ 120 rfl
            (by omega) (by omega)]
    · unfold code_runner.run_python_linting code_runner.subp
      rw [h ⟨["ruff", "check", "."], repo, some 60⟩ 60 rfl (by omega) (by omega),
          h ⟨["flake8", "."], repo, some 60⟩ 60 rfl (by omega) (by omega)]

/-- Witness for C7 on concrete oracle pairs that agree on the relevant
invocation class. -/
theorem c7_amended_witness :
    security_node noFs allFnf (initial_state "r" "repo")
      = security_node noFs probeBounded (initial_state "r" "repo")
    ∧ code_runner.run_python_tests noFs timeoutProbe "repo" (mkPA "python")
      = code_runner.run_python_tests noFs allOk "repo" (mkPA "python") :=
  ⟨c7_amended.2.1 noFs allFnf probeBounded (initial_state "r" "repo")
      (fun c hc => by simp [allFnf, probeBounded, hc]),
   (c7_amended.2.2 noFs timeoutProbe allOk "repo" (mkPA "python")
      (fun c t hct _ _ => by simp [timeoutProbe, allOk, hct])).1⟩

/-! ## Task-id synthesis in the planner conversion -/

theorem convert_task_aux_synth (n : Nat) (xs : List JsonValue)
    (h : ∀ x ∈ xs, ∃ kvs, x = JsonValue.obj kvs
      ∧ objGet kvs "task_id" = none ∧ objGet kvs "id" = none) :
    (convert_task_aux n xs).map CTask.id
      = (List.range xs.length).map (fun i => "task" ++ toString (n + i + 1)) := by
  induction xs generalizing n with
  | nil => rfl
  | cons x xs ih =>
    obtain ⟨kvs, rfl, h1, h2⟩ := h _ (List.mem_cons_self _ xs)
    have hid : (mk_converted n kvs).id = "task" ++ toString (n + 1) := by
      simp only [mk_converted, h1, h2]
    show ((mk_converted n kvs :: convert_task_aux (n + 1) xs).map CTask.id) = _
    rw [List.map_cons, hid,
      ih (n + 1) (fun y hy => h y (List.mem_cons_of_mem _ hy))]
    show _ = (List.range (xs.length + 1)).map (fun i => "task" ++ toString (n + i + 1))
    rw [List.range_succ_eq_map, List.map_cons, List.map_map]
    have hhead : ("task" ++ toString (n + 1))
        = (fun i => "task" ++ toString (n + i + 1)) 0 := by
      show _ = "task" ++ toString (n + 0 + 1)
      have h0 : n + 0 + 1 = n + 1 := by omega
      rw [h0]
    have htail : List.map (fun i => "task" ++ toString (n + 1 + i + 1)) (List.range xs.length)
        = List.map ((fun i => "task" ++ toString (n + i + 1)) ∘ Nat.succ)
            (List.range xs.length) := by
      apply List.map_congr_left
      intro i _
      show "task" ++ toString (n + 1 + i + 1) = "task" ++ toString (n + Nat.succ i + 1)
      have hi2 : n + 1 + i + 1 = n + Nat.succ i + 1 := by omega
      rw [hi2]
    rw [hhead, htail]

theorem convert_task_aux_keep (n : Nat) (xs : List JsonValue)
    (h : ∀ x ∈ xs, (effId x).isSome = true) :
    (convert_task_aux n xs).map CTask.id = xs.filterMap effId := by
  induction xs generalizing n with
  | nil => rfl
  | cons x xs ih =>
    have hhead := h _ (List.mem_cons_self _ xs)
    have htail := fun y hy => h y (List.mem_cons_of_mem x hy)
    cases x with
    | obj kvs =>
      show ((mk_converted n kvs :: convert_task_aux (n + 1) xs).map CTask.id) = _
      rw [List.map_cons, ih (n + 1) htail]
      cases ht : objGet kvs "task_id" with
      | some v =>
        have he : effId (.obj kvs) = some (pyStr v) := by simp only [effId, ht]
        rw [List.filterMap_cons_some he]
        have : (mk_converted n kvs).id = pyStr v := by simp only [mk_converted, ht]
        rw [this]
      | none =>
        cases hi : objGet kvs "id" with
        | some v =>
          have he : effId (.obj kvs) = some (pyStr v) := by simp only [effId, ht, hi]; rfl
          rw [List.filterMap_cons_some he]
          have : (mk_converted n kvs).id = pyStr v := by simp only [mk_converted, ht, hi]
          rw [this]
        | none =>
          exfalso
          have : effId (.obj kvs) = none := by simp only [effId, ht, hi]; rfl
          rw [this] at hhead
          cases hhead
    | null => simp [effId] at hhead
    | bool b => simp [effId] at hhead
    | num l => simp [effId] at hhead
    | str ss => simp [effId] at hhead
    | arr es => simp [effId] at hhead

/-- C8 counterexample: duplicate (and empty) ids supplied upstream
survive the planner's conversion verbatim — the resulting task ids are
neither unique nor non-empty. -/
theorem c8_counterexample :
    planner_normalize "req" c8raw
      = .ok { prd_md := "p",
              tasks := [⟨"t", "a"⟩, ⟨"t", "b"⟩, ⟨"", "c"⟩] }
    ∧ ¬ (([⟨"t", "a"⟩, ⟨"t", "b"⟩, (⟨"", "c"⟩ : TaskR)].map TaskR.id).Nodup)
    ∧ "" ∈ ([⟨"t", "a"⟩, ⟨"t", "b"⟩, (⟨"", "c"⟩ : TaskR)].map TaskR.id) :=
  ⟨rfl, by decide, by decide⟩

/-- C8 (amended): a task record that supplies neither `task_id` nor `id`
gets the deterministic positional id `task{k+1}` (k = its position among
the converted tasks); records that do supply an id keep it verbatim
(stringified), so the converted ids are exactly the supplied ones and
are unique only when the upstream ids are themselves distinct —
duplicate or empty upstream ids are preserved, not repaired. -/
theorem c8_amended :
    (∀ xs : List JsonValue, (∀ x ∈ xs, ∃ kvs, x = JsonValue.obj kvs
        ∧ objGet kvs "task_id" = none ∧ objGet kvs "id" = none) →
      (convert_task_list xs).map CTask.id
        = (List.range xs.length).map (fun i => "task" ++ toString (i + 1)))
    ∧ (∀ xs : List JsonValue, (∀ x ∈ xs, (effId x).isSome = true) →
      (convert_task_list xs).map CTask.id = xs.filterMap effId)
    ∧ (∀ xs : List JsonValue, (∀ x ∈ xs, (effId x).isSome = true) →
      (xs.filterMap effId).Nodup → ((convert_task_list xs).map CTask.id).Nodup) := by
  refine ⟨?_, ?_, ?_⟩
  · intro xs h
    have hs := convert_task_aux_synth 0 xs h
    unfold convert_task_list
    rw [hs]
    apply List.map_congr_left
    intro i _
    have : 0 + i + 1 = i + 1 := by omega
    rw [this]
  · intro xs h
    exact convert_task_aux_keep 0 xs h
  · intro xs h hnd
    rw [show (convert_task_list xs).map CTask.id = xs.filterMap effId from
      convert_task_aux_keep 0 xs h]
    exact hnd

/-- Witness for C8 on concrete task lists: positional synthesis for
records without ids, verbatim preservation for supplied ids. -/
theorem c8_amended_witness :
    (convert_task_list [JsonValue.obj [("title", JsonValue.str "a")],
        JsonValue.obj []]).map CTask.id
      = (List.range ([JsonValue.obj [("title", JsonValue.str "a")],
          JsonValue.obj []] : List JsonValue).length).map (fun i => "task" ++ toString (i + 1))
    ∧ (convert_task_list [JsonValue.obj [("id", JsonValue.str "x")],
        JsonValue.obj [("task_id", JsonValue.num "5")]]).map CTask.id
      = ([JsonValue.obj [("id", JsonValue.str "x")],
          JsonValue.obj [("task_id", JsonValue.num "5")]] : List JsonValue).filterMap effId :=
  ⟨c8_amended.1 _ (fun x hx => by
      rcases List.mem_cons.mp hx with rfl | hx2
      · exact ⟨_, rfl, rfl, rfl⟩
      · rcases List.mem_cons.mp hx2 with rfl | hx3
        · exact ⟨_, rfl, rfl, rfl⟩
        · cases hx3),
   c8_amended.2.1 _ (fun x hx => by
      rcases List.mem_cons.mp hx with rfl | hx2
      · rfl
      · rcases List.mem_cons.mp hx2 with rfl | hx3
        · rfl
        · cases hx3)⟩

/-! ## Analyzer insensitivity to denylisted directories -/

theorem filter_split (l : Fs) (P Q : List String × String → Bool) :
    l.filter (fun e => P e && Q e) = (l.filter P).filter Q := by
  induction l with
  | nil => rfl
  | cons e l ih =>
    by_cases hp : P e = true <;> by_cases hq : Q e = true <;>
      simp [List.filter_cons, hp, hq, ih]

theorem find_filter_eq (p : List String) (l : Fs) (hp : dirsVisible p = true) :
    l.find? (fun e => e.1 = p) = (l.filter (fun e => dirsVisible e.1)).find? (fun e => e.1 = p) := by
  induction l with
  | nil => rfl
  | cons e l ih =>
    by_cases he : e.1 = p
    · have hv : dirsVisible e.1 = true := by rw [he]; exact hp
      rw [List.filter_cons_of_pos (by exact hv)]
      rw [List.find?_cons_of_pos _ (by simp [he]), List.find?_cons_of_pos _ (by simp [he])]
    · by_cases hv : dirsVisible e.1 = true
      · rw [List.filter_cons_of_pos (by exact hv)]
        rw [List.find?_cons_of_neg _ (by simp [he]), List.find?_cons_of_neg _ (by simp [he])]
        exact ih
      · rw [List.filter_cons_of_neg (by simpa using hv)]
        rw [List.find?_cons_of_neg _ (by simp [he])]
        exact ih

theorem read_congr (fs₁ fs₂ : Fs)
    (H : fs₁.filter (fun e => dirsVisible e.1) = fs₂.filter (fun e => dirsVisible e.1))
    (p : List String) (hp : dirsVisible p = true) :
    read_file_content fs₁ p = read_file_content fs₂ p := by
  unfold read_file_content
  rw [find_filter_eq p fs₁ hp, find_filter_eq p fs₂ hp, H]

theorem list_all_files_congr (fs₁ fs₂ : Fs)
    (H : fs₁.filter (fun e => dirsVisible e.1) = fs₂.filter (fun e => dirsVisible e.1)) :
    list_all_files fs₁ = list_all_files fs₂ := by
  unfold list_all_files
  rw [filter_split fs₁ (fun e => dirsVisible e.1) (fun e => fileAllowed e.1),
      filter_split fs₂ (fun e => dirsVisible e.1) (fun e => fileAllowed e.1), H]

theorem detect_frameworks_congr (lang : String) (files : List (List String))
    (c₁ c₂ : List String → String) (h : ∀ p ∈ files, c₁ p = c₂ p) :
    detect_frameworks lang files c₁ = detect_frameworks lang files c₂ := by
  unfold detect_frameworks
  by_cases he : (framework_patterns lang).isEmpty
  · rw [if_pos he, if_pos he]
  · rw [if_neg he, if_neg he]
    apply List.foldl_ext
    intro acc p hp
    rw [h p hp]

theorem analyze_core_congr (files : List (List String)) (c₁ c₂ : List String → String)
    (h : ∀ p ∈ files, c₁ p = c₂ p) :
    analyze_core files c₁ = analyze_core files c₂ := by
  simp only [analyze_core]
  rw [detect_frameworks_congr _ files c₁ c₂ h]

/-- C9: two directory trees that agree outside the denylisted
directories (they may differ arbitrarily inside `node_modules`,
`__pycache__`, `venv`, `.git`, `target`, `build`, `dist`, …) produce
identical `ProjectProfile` values. -/
theorem c9_analyzer_insensitive (fs₁ fs₂ : Fs)
    (H : fs₁.filter (fun e => dirsVisible e.1) = fs₂.filter (fun e => dirsVisible e.1)) :
    analyze_project_structure fs₁ = analyze_project_structure fs₂ := by
  unfold analyze_project_structure
  rw [list_all_files_congr fs₁ fs₂ H]
  apply analyze_core_congr
  intro p hp
  have hv : dirsVisible p = true := by
    unfold list_all_files at hp
    obtain ⟨e, he, rfl⟩ := List.mem_map.mp hp
    have hmem := (List.mem_filter.mp he).2
    exact (Bool.and_eq_true _ _).mp hmem |>.1
  exact read_congr fs₁ fs₂ H p hv

/-- Witness for C9 on two concrete trees differing only inside
`node_modules`. -/
theorem c9_analyzer_insensitive_witness :
    analyze_project_structure c9fs1 = analyze_project_structure c9fs2 :=
  c9_analyzer_insensitive c9fs1 c9fs2 (by rfl)

end MCGS
